import Mathlib

/-!
Verification of the Cognito auth package's validation, formatting and
handler layer (helper utilities, the Cognito gateway-client wrapper, and
the Lambda request handlers), shallowly embedded in Lean.

Strings are modelled as Lean `String`/`List Char`; JavaScript `undefined`
for an optional string field is modelled as `Option.none`, and JS
truthiness of such a field (`!x`) is `none` or the empty string.
JSON-representable values are modelled by the `Json` inductive below,
with numbers as exact integers.
-/

/-- Set of characters matched by the JavaScript regex class `\\s`,
given by code point: space, tab, line feed, vertical tab, form feed,
carriage return, NBSP, Ogham space, the U+2000 block, line and
paragraph separators, narrow NBSP, medium mathematical space,
ideographic space and BOM. -/
def jsSpace (c : Char) : Bool :=
  let n := c.toNat
  n = 0x20 || n = 0x09 || n = 0x0a || n = 0x0b || n = 0x0c || n = 0x0d ||
  n = 0xa0 || n = 0x1680 || (0x2000 ≤ n && n ≤ 0x200a) ||
  n = 0x2028 || n = 0x2029 || n = 0x202f || n = 0x205f ||
  n = 0x3000 || n = 0xfeff

/-- Character class `[A-Z]` of the password regexes. -/
def upperAZ (c : Char) : Bool := 'A' ≤ c && c ≤ 'Z'

/-- Character class `[a-z]` of the password regexes. -/
def lowerAZ (c : Char) : Bool := 'a' ≤ c && c ≤ 'z'

/-- Character class `[0-9]` of the password regexes. -/
def digit09 (c : Char) : Bool := '0' ≤ c && c ≤ '9'

/-- Character class `[^A-Za-z0-9]` of the password symbol regex. -/
def symbolChar (c : Char) : Bool := !(upperAZ c || lowerAZ c || digit09 c)

/-- JS truthiness test for an optional string field: `!x` is true exactly
when the field is absent (`undefined`) or the empty string. -/
def jsFalsyS : Option String → Bool
  | none => true
  | some s => s = ""

/-- Result record returned by `validatePassword` (helper.ts). -/
structure ValidationResult where
  valid : Bool
  errors : List String
deriving DecidableEq, Repr

/-- Error message of the length check in `validatePassword`. -/
def pwMsgLen : String := "Password must be at least 12 characters"

/-- Error message of the uppercase check in `validatePassword`. -/
def pwMsgUpper : String := "Password must contain uppercase letters"

/-- Error message of the lowercase check in `validatePassword`. -/
def pwMsgLower : String := "Password must contain lowercase letters"

/-- Error message of the digit check in `validatePassword`. -/
def pwMsgNum : String := "Password must contain numbers"

/-- Error message of the symbol check in `validatePassword`. -/
def pwMsgSym : String := "Password must contain symbols"

/-- Embedding of `validatePassword` from helper.ts: five unconditional
checks, each appending its message to the error list; `valid` is true
iff no error was collected.  `!password || password.length < 12` is
the first condition; on strings `!password` means the empty string. -/
def validatePassword (password : String) : ValidationResult :=
  let errors : List String :=
    (if password = "" || password.data.length < 12 then [pwMsgLen] else []) ++
    (if password.data.any upperAZ then [] else [pwMsgUpper]) ++
    (if password.data.any lowerAZ then [] else [pwMsgLower]) ++
    (if password.data.any digit09 then [] else [pwMsgNum]) ++
    (if password.data.any symbolChar then [] else [pwMsgSym])
  { valid := errors.isEmpty, errors := errors }

/-- Character admissible in a segment of the email regex: the class
`[^\s@]`. -/
def emailChar (c : Char) : Bool := !(jsSpace c) && !(c = '@')

/-- Embedding of JavaScript `String.split(sep)` for a single-character
separator: splits at every occurrence, keeping empty pieces. -/
def jsSplit (sep : Char) : List Char → List (List Char)
  | [] => [[]]
  | c :: cs =>
    if c = sep then [] :: jsSplit sep cs
    else
      match jsSplit sep cs with
      | [] => [[c]]
      | h :: t => (c :: h) :: t

/-- True iff the list contains a '.' at some position other than the
last one. -/
def dotNotLast : List Char → Bool
  | [] => false
  | [_] => false
  | c :: d :: tl => c = '.' || dotNotLast (d :: tl)

/-- True iff the list decomposes as `B ++ '.' :: C` with `B` and `C`
both nonempty. -/
def midDot : List Char → Bool
  | [] => false
  | _ :: rest => dotNotLast rest

/-- Embedding of `validateEmail` from helper.ts, deciding the anchored
regex `[^\s@]+@[^\s@]+\.[^\s@]+`: exactly one '@', a nonempty local
part of `[^\s@]` characters, and a nonempty domain of `[^\s@]`
characters containing a '.' with at least one character on each side. -/
def validateEmail (email : String) : Bool :=
  match jsSplit '@' email.data with
  | [a, r] =>
    !a.isEmpty && a.all emailChar && !r.isEmpty && r.all emailChar && midDot r
  | _ => false

/-- Case-insensitive character comparison used by the `i` regex flag on
ASCII patterns. -/
def ciEq (a b : Char) : Bool := a.toLower = b.toLower

/-- Case-insensitive test whether `pat` occurs at the head of `l`. -/
def leadsWithCI : List Char → List Char → Bool
  | [], _ => true
  | _ :: _, [] => false
  | p :: ps, c :: cs => ciEq p c && leadsWithCI ps cs

/-- Case-sensitive test whether `pat` occurs at the head of `l`;
models JavaScript `String.startsWith`. -/
def leadsWith : List Char → List Char → Bool
  | [], _ => true
  | _ :: _, [] => false
  | p :: ps, c :: cs => p = c && leadsWith ps cs

/-- Case-insensitive substring test: true iff `pat` occurs (contiguously)
somewhere in `l` up to case.  Equivalently, the lowercase-normalized
form of `l` contains the lowercase-normalized form of `pat`. -/
def hasSubCI (pat : List Char) : List Char → Bool
  | [] => pat.isEmpty
  | c :: cs => leadsWithCI pat (c :: cs) || hasSubCI pat cs

/-- String-level wrapper of `hasSubCI`. -/
def containsCI (pat s : String) : Bool := hasSubCI pat.data s.data

/-- Fuel-indexed worker for the global case-insensitive replacement of
a regex literal: leftmost, non-overlapping, continuing after each
replaced occurrence, exactly like `String.replace(/pat/gi, rep)`.
The fuel is the length of the remaining input. -/
def replCIAux (pat rep : List Char) : Nat → List Char → List Char
  | _, [] => []
  | 0, l => l
  | Nat.succ f, c :: cs =>
    if !pat.isEmpty && leadsWithCI pat (c :: cs) then
      rep ++ replCIAux pat rep f (List.drop (pat.length - 1) cs)
    else
      c :: replCIAux pat rep f cs

/-- Embedding of `message.replace(/pat/gi, rep)` for a literal pattern. -/
def replaceCI (pat rep s : String) : String :=
  ⟨replCIAux pat.data rep.data s.data.length s.data⟩

/-- Redaction marker used by `formatErrorResponse`. -/
def redactedMark : String := "[REDACTED]"

/-- Embedding of the sanitization in `formatErrorResponse` (helper.ts):
`.replace(/password/gi,..).replace(/token/gi,..).replace(/session/gi,..)`. -/
def sanitizeMessage (m : String) : String :=
  replaceCI "session" redactedMark
    (replaceCI "token" redactedMark
      (replaceCI "password" redactedMark m))

example : validatePassword "" =
    { valid := false,
      errors := [pwMsgLen, pwMsgUpper, pwMsgLower, pwMsgNum, pwMsgSym] } := by
  decide

example : (validatePassword "Abcdefgh1234!").valid = true := by decide

example : validateEmail "a@b.c" = true := by decide
example : validateEmail "a@b" = false := by decide
example : validateEmail "a@.c" = false := by decide
example : validateEmail "a@b.c.d" = true := by decide
example : validateEmail "a@b..c" = true := by decide
example : validateEmail "a b@c.d" = false := by decide
example : validateEmail "a@b@c.d" = false := by decide
example : validateEmail "" = false := by decide

example : sanitizeMessage "Database failed with PassWord: secret" =
    "Database failed with [REDACTED]: secret" := by decide

example : sanitizeMessage "An unexpected error occurred during password reset" =
    "An unexpected error occurred during [REDACTED] reset" := by decide

example : sanitizeMessage "toTOKENken" = "to[REDACTED]ken" := by decide

/-! JSON values, serialization and parsing.  `Json` models the
JSON-representable JavaScript values handled by `JSON.stringify` /
`JSON.parse`, with numbers as exact integers (the handlers only ever
serialize integral numbers). -/

mutual
inductive Json where
  | null : Json
  | jb (b : Bool) : Json
  | jn (i : Int) : Json
  | js (s : String) : Json
  | jarr (elems : JArr) : Json
  | jobj (fields : JObj) : Json
deriving DecidableEq, Repr

inductive JArr where
  | nil : JArr
  | cons (hd : Json) (tl : JArr) : JArr
deriving DecidableEq, Repr

inductive JObj where
  | nil : JObj
  | cons (k : String) (v : Json) (tl : JObj) : JObj
deriving DecidableEq, Repr
end

/-- Convenience constructor for object values from an association list. -/
def mkObj : List (String × Json) → JObj
  | [] => .nil
  | (k, v) :: t => .cons k v (mkObj t)

/-- Convenience constructor for array values from a list. -/
def mkArr : List Json → JArr
  | [] => .nil
  | v :: t => .cons v (mkArr t)

/-- Decimal digit accumulation worker, structural on its fuel; with fuel
above `n` it produces the usual base-10 numeral of `n` before `acc`. -/
def natCharsAux : Nat → Nat → List Char → List Char
  | 0, _, acc => acc
  | Nat.succ f, n, acc =>
    if n < 10 then Nat.digitChar n :: acc
    else natCharsAux f (n / 10) (Nat.digitChar (n % 10) :: acc)

/-- Base-10 numeral of a natural number as emitted by `JSON.stringify`. -/
def natChars (n : Nat) : List Char := natCharsAux (n + 1) n []

/-- Decimal notation of an integer as emitted by `JSON.stringify`. -/
def intChars (i : Int) : List Char :=
  if i < 0 then '-' :: natChars i.natAbs else natChars i.natAbs

/-- Escape of one character inside a JSON string literal, exactly as
`JSON.stringify` emits it: quote and backslash are backslash-escaped,
the five short control escapes are used where they exist, any other
control character becomes a lowercase `\u00xx` escape, and every other
character is emitted verbatim. -/
def escChar (c : Char) : List Char :=
  if c = '"' then ['\\', '"']
  else if c = '\\' then ['\\', '\\']
  else if c = '\x08' then ['\\', 'b']
  else if c = '\t' then ['\\', 't']
  else if c = '\n' then ['\\', 'n']
  else if c = '\x0c' then ['\\', 'f']
  else if c = '\r' then ['\\', 'r']
  else if c.toNat < 32 then
    ['\\', 'u', '0', '0', Nat.digitChar (c.toNat / 16), Nat.digitChar (c.toNat % 16)]
  else [c]

/-- Escapes every character of a JSON string body. -/
def escapeChars (l : List Char) : List Char :=
  l.foldr (fun c acc => escChar c ++ acc) []

mutual
/-- Serialization of a JSON value, exactly as `JSON.stringify` renders
it with default arguments (no whitespace, fields in insertion order). -/
def strV : Json → List Char
  | .null => 'n' :: 'u' :: 'l' :: 'l' :: []
  | .jb true => 't' :: 'r' :: 'u' :: 'e' :: []
  | .jb false => 'f' :: 'a' :: 'l' :: 's' :: 'e' :: []
  | .jn i => intChars i
  | .js s => '"' :: (escapeChars s.data ++ ['"'])
  | .jarr a => '[' :: (strA a ++ [']'])
  | .jobj o => '{' :: (strO o ++ ['}'])

/-- Serialization of the comma-separated elements of a JSON array. -/
def strA : JArr → List Char
  | .nil => []
  | .cons h .nil => strV h
  | .cons h (.cons h2 t) => strV h ++ ',' :: strA (.cons h2 t)

/-- Serialization of the comma-separated fields of a JSON object. -/
def strO : JObj → List Char
  | .nil => []
  | .cons k v .nil => '"' :: (escapeChars k.data ++ '"' :: ':' :: strV v)
  | .cons k v (.cons k2 v2 t) =>
    '"' :: (escapeChars k.data ++ '"' :: ':' :: strV v) ++
      ',' :: strO (.cons k2 v2 t)
end

/-- String-level wrapper of `strV`: the embedding of `JSON.stringify`. -/
def stringifyJson (d : Json) : String := ⟨strV d⟩

/-- Prepends a character to the parsed-so-far part of a string-parser
result. -/
def consR (c : Char) : Option (List Char × List Char) → Option (List Char × List Char)
  | none => none
  | some (s, r) => some (c :: s, r)

/-- Hexadecimal digit test (both cases), as accepted in `\uXXXX`. -/
def isHexDig (c : Char) : Bool :=
  digit09 c || ('a' ≤ c && c ≤ 'f') || ('A' ≤ c && c ≤ 'F')

/-- Numeric value of a hexadecimal digit. -/
def hexDigVal (c : Char) : Nat :=
  if digit09 c then c.toNat - 48
  else if 'a' ≤ c && c ≤ 'f' then c.toNat - 87
  else if 'A' ≤ c && c ≤ 'F' then c.toNat - 55
  else 0

/-- Parser for the body of a JSON string literal (after the opening
quote), consuming through the closing quote and undoing the escapes. -/
def parseStrAux : List Char → Option (List Char × List Char)
  | [] => none
  | c :: rest =>
    if c = '"' then some ([], rest)
    else if c = '\\' then
      match rest with
      | [] => none
      | e :: r2 =>
        if e = '"' then consR '"' (parseStrAux r2)
        else if e = '\\' then consR '\\' (parseStrAux r2)
        else if e = '/' then consR '/' (parseStrAux r2)
        else if e = 'b' then consR '\x08' (parseStrAux r2)
        else if e = 't' then consR '\t' (parseStrAux r2)
        else if e = 'n' then consR '\n' (parseStrAux r2)
        else if e = 'f' then consR '\x0c' (parseStrAux r2)
        else if e = 'r' then consR '\r' (parseStrAux r2)
        else if e = 'u' then
          match r2 with
          | h1 :: h2 :: h3 :: h4 :: r3 =>
            if isHexDig h1 && isHexDig h2 && isHexDig h3 && isHexDig h4 then
              consR (Char.ofNat (hexDigVal h1 * 4096 + hexDigVal h2 * 256 +
                hexDigVal h3 * 16 + hexDigVal h4)) (parseStrAux r3)
            else none
          | _ => none
        else none
    else consR c (parseStrAux rest)

/-- Numeric value of a list of decimal digits. -/
def natOfChars (l : List Char) : Nat :=
  l.foldl (fun a c => 10 * a + (c.toNat - 48)) 0

/-- Parser for an integral JSON number: an optional minus sign followed
by a maximal run of decimal digits. -/
def parseNum : List Char → Option (Int × List Char)
  | [] => none
  | c :: rest =>
    if c = '-' then
      let ds := rest.takeWhile digit09
      if ds.isEmpty then none
      else some (-(natOfChars ds : Int), rest.dropWhile digit09)
    else
      let ds := (c :: rest).takeWhile digit09
      if ds.isEmpty then none
      else some ((natOfChars ds : Int), (c :: rest).dropWhile digit09)

mutual
/-- Fuel-indexed parser for one JSON value.  It accepts the grammar
that `JSON.stringify` emits (no interspersed whitespace, integral
numbers); `JSON.parse` accepts a superset of it. -/
def parseVal : Nat → List Char → Option (Json × List Char)
  | 0, _ => none
  | Nat.succ f, l =>
    match l with
    | [] => none
    | c :: rest =>
      if c = 'n' then
        match rest with
        | 'u' :: 'l' :: 'l' :: r => some (.null, r)
        | _ => none
      else if c = 't' then
        match rest with
        | 'r' :: 'u' :: 'e' :: r => some (.jb true, r)
        | _ => none
      else if c = 'f' then
        match rest with
        | 'a' :: 'l' :: 's' :: 'e' :: r => some (.jb false, r)
        | _ => none
      else if c = '"' then
        match parseStrAux rest with
        | some (s, r) => some (.js ⟨s⟩, r)
        | none => none
      else if c = '[' then
        match rest with
        | [] => none
        | c2 :: r2 =>
          if c2 = ']' then some (.jarr .nil, r2)
          else
            match parseArrTail f (c2 :: r2) with
            | some (a, r) => some (.jarr a, r)
            | none => none
      else if c = '{' then
        match rest with
        | [] => none
        | c2 :: r2 =>
          if c2 = '}' then some (.jobj .nil, r2)
          else
            match parseObjTail f (c2 :: r2) with
            | some (o, r) => some (.jobj o, r)
            | none => none
      else
        match parseNum (c :: rest) with
        | some (i, r) => some (.jn i, r)
        | none => none

/-- Fuel-indexed parser for the nonempty element list of a JSON array,
consuming through the closing bracket. -/
def parseArrTail : Nat → List Char → Option (JArr × List Char)
  | 0, _ => none
  | Nat.succ f, l =>
    match parseVal f l with
    | none => none
    | some (v, rest) =>
      match rest with
      | [] => none
      | c :: r2 =>
        if c = ',' then
          match parseArrTail f r2 with
          | some (tl, r3) => some (.cons v tl, r3)
          | none => none
        else if c = ']' then some (.cons v .nil, r2)
        else none

/-- Fuel-indexed parser for the nonempty field list of a JSON object,
consuming through the closing brace. -/
def parseObjTail : Nat → List Char → Option (JObj × List Char)
  | 0, _ => none
  | Nat.succ f, l =>
    match l with
    | [] => none
    | c :: rest =>
      if c = '"' then
        match parseStrAux rest with
        | none => none
        | some (k, r1) =>
          match r1 with
          | [] => none
          | c2 :: r2 =>
            if c2 = ':' then
              match parseVal f r2 with
              | none => none
              | some (v, r3) =>
                match r3 with
                | [] => none
                | c3 :: r4 =>
                  if c3 = ',' then
                    match parseObjTail f r4 with
                    | some (tl, r5) => some (.cons ⟨k⟩ v tl, r5)
                    | none => none
                  else if c3 = '}' then some (.cons ⟨k⟩ v .nil, r4)
                  else none
            else none
      else none
end

/-- Embedding of `JSON.parse` restricted to the image of
`JSON.stringify`: parses one value and requires the whole input to be
consumed. -/
def parseJson (s : String) : Option Json :=
  match parseVal (s.data.length + 1) s.data with
  | some (v, []) => some v
  | _ => none

example : stringifyJson (.jobj (mkObj [("a", .jn 3), ("b", .jarr (mkArr [.null, .js "x"]))])) =
    "\x7b\"a\":3,\"b\":[null,\"x\"]\x7d" := by decide

example : parseJson "\x7b\"a\":3,\"b\":[null,\"x\"]\x7d" =
    some (.jobj (mkObj [("a", .jn 3), ("b", .jarr (mkArr [.null, .js "x"]))])) := by decide

example : parseJson (stringifyJson (.js "a\n\"b\\c\x01")) = some (.js "a\n\"b\\c\x01") := by decide

example : parseJson (stringifyJson (.jn (-250))) = some (.jn (-250)) := by decide

/-! Response formatting (helper.ts) and the handler layer. -/

/-- A JavaScript `Error` object as the handlers observe it: a `name`
discriminant and a `message`.  An absent or empty name is modelled by
the empty string (both are falsy in `error.name || 'InternalError'`). -/
structure ErrObj where
  name : String
  message : String
deriving DecidableEq, Repr

/-- API Gateway response record returned by every handler. -/
structure HttpResponse where
  statusCode : Nat
  headers : List (String × String)
  body : String
deriving DecidableEq, Repr

/-- Headers set on every formatted response. -/
def apiHeaders : List (String × String) :=
  [("Content-Type", "application/json"), ("Access-Control-Allow-Origin", "*")]

/-- Structured body built by `formatErrorResponse`: the error name (or
the default `InternalError`) verbatim as `error.code`, the sanitized
message as `error.message`. -/
def errorBody (e : ErrObj) : Json :=
  .jobj (mkObj [("error", .jobj (mkObj
    [("code", .js (if e.name = "" then "InternalError" else e.name)),
     ("message", .js (sanitizeMessage e.message))]))])

/-- Embedding of `formatErrorResponse` from helper.ts. -/
def formatErrorResponse (e : ErrObj) (statusCode : Nat) : HttpResponse :=
  { statusCode := statusCode, headers := apiHeaders,
    body := stringifyJson (errorBody e) }

/-- Embedding of `formatSuccessResponse` from helper.ts. -/
def formatSuccessResponse (data : Json) (statusCode : Nat) : HttpResponse :=
  { statusCode := statusCode, headers := apiHeaders,
    body := stringifyJson data }

/-- Environment configuration read by every handler. -/
structure Env where
  USER_POOL_ID : Option String
  CLIENT_ID : Option String
  REGION : Option String
  AWS_REGION : Option String
deriving DecidableEq, Repr

/-- True when `!userPoolId || !clientId` holds, i.e. the Cognito
configuration is missing and the handler returns the 500 response. -/
def configMissing (env : Env) : Bool :=
  jsFalsyS env.USER_POOL_ID || jsFalsyS env.CLIENT_ID

/-- One invocation of a Gateway Client (Cognito class) operation,
with the arguments the handler passes. -/
inductive GwCall where
  | authenticate (username password : String)
  | register (username password email : String)
      (attributes : Option (List (String × String)))
  | respondToChallenge (session mfaCode username : String)
  | changePassword (previousPassword proposedPassword accessToken : String)
  | initiateReset (username : String)
  | confirmReset (username code newPassword : String)
  | verifyCode (username code : String)
deriving DecidableEq, Repr

/-- Outcome of a gateway operation: a payload, or a thrown error. -/
def GwOutcome := Except ErrObj Json

/-- An oracle giving the outcome of each possible gateway operation;
a handler is a function of the event, the environment and this oracle,
returning its response together with the list of operations it invoked. -/
def GwOracle := GwCall → GwOutcome

/-- The error message Cognito.login throws when the provider signals a
challenge, before the session token is appended. -/
def mfaMark : String := "MFA_REQUIRED:"

/-- Session token extraction in the login handler's challenge branch:
`error.message.split(':')[1]`. -/
def sessionFromMsg (m : String) : String :=
  ⟨(jsSplit ':' m.data).getD 1 []⟩

/-- Structured 200 body the login handler returns when the gateway
signalled an MFA challenge. -/
def mfaChallengeBody (session : String) : Json :=
  .jobj (mkObj
    [("challengeName", .js "MFA_REQUIRED"),
     ("session", .js session),
     ("message", .js "MFA verification required. Please provide MFA code.")])

/-- Catch clause of the login handler (login.ts): the MFA-challenge
branch keyed on the message, then the name-keyed status mapping. -/
def loginCatch (e : ErrObj) : HttpResponse :=
  if leadsWith mfaMark.data e.message.data then
    formatSuccessResponse (mfaChallengeBody (sessionFromMsg e.message)) 200
  else if e.name = "NotAuthorizedException" then
    formatErrorResponse ⟨"Error", "Incorrect username or password"⟩ 401
  else if e.name = "UserNotConfirmedException" then
    formatErrorResponse ⟨"Error", "User account is not confirmed. Please verify your email"⟩ 403
  else if e.name = "UserNotFoundException" then
    formatErrorResponse ⟨"Error", "Incorrect username or password"⟩ 401
  else if e.name = "InvalidParameterException" then
    formatErrorResponse ⟨"Error", "Invalid parameter provided"⟩ 400
  else if e.name = "TooManyRequestsException" then
    formatErrorResponse ⟨"Error", "Too many requests. Please try again later"⟩ 429
  else if e.name = "PasswordResetRequiredException" then
    formatErrorResponse ⟨"Error", "Password reset required. Please reset your password"⟩ 403
  else if e.name = "UserLambdaValidationException" then
    formatErrorResponse ⟨"Error", "User validation failed"⟩ 403
  else
    formatErrorResponse ⟨"Error", "An unexpected error occurred during login"⟩ 500

/-- Parsed login request body; a field that is absent (or not a string)
is `none`. -/
structure LoginReq where
  username : Option String
  password : Option String
deriving DecidableEq, Repr

/-- The 400 response for a request body that is not valid JSON, shared
verbatim by all handlers. -/
def badJsonResponse : HttpResponse :=
  formatErrorResponse ⟨"Error", "Invalid request body: must be valid JSON"⟩ 400

/-- The 500 response for missing Cognito configuration, shared verbatim
by all handlers. -/
def configErrorResponse : HttpResponse :=
  formatErrorResponse ⟨"Error", "Server configuration error: missing Cognito configuration"⟩ 500

/-- Embedding of the login handler (login.ts).  The event's JSON body is
modelled already parsed (`none` for malformed JSON); the gateway call,
if any, is looked up in the oracle, and the list of calls made is
returned alongside the response. -/
def loginHandler (event : Option LoginReq) (env : Env) (gw : GwOracle) :
    HttpResponse × List GwCall :=
  match event with
  | none => (badJsonResponse, [])
  | some b =>
    if jsFalsyS b.username || jsFalsyS b.password then
      (formatErrorResponse
        ⟨"Error", "Missing required fields: username and password are required"⟩ 400, [])
    else if configMissing env then (configErrorResponse, [])
    else
      let call := GwCall.authenticate (b.username.getD "") (b.password.getD "")
      match gw call with
      | .ok result => (formatSuccessResponse result 200, [call])
      | .error e => (loginCatch e, [call])

/-- Catch clause of the signup handler (signup.ts). -/
def signupCatch (e : ErrObj) : HttpResponse :=
  if e.name = "UsernameExistsException" then
    formatErrorResponse ⟨"Error", "An account with this username already exists"⟩ 409
  else if e.name = "InvalidPasswordException" then
    formatErrorResponse ⟨"Error", "Password does not meet requirements"⟩ 400
  else if e.name = "InvalidParameterException" then
    formatErrorResponse ⟨"Error", "Invalid parameter provided"⟩ 400
  else if e.name = "TooManyRequestsException" then
    formatErrorResponse ⟨"Error", "Too many requests. Please try again later"⟩ 429
  else if e.name = "LimitExceededException" then
    formatErrorResponse ⟨"Error", "Account creation limit exceeded. Please try again later"⟩ 429
  else
    formatErrorResponse ⟨"Error", "An unexpected error occurred during signup"⟩ 500

/-- Parsed signup request body. -/
structure SignupReq where
  username : Option String
  password : Option String
  email : Option String
  attributes : Option (List (String × String))
deriving DecidableEq, Repr

/-- Embedding of the signup handler (signup.ts). -/
def signupHandler (event : Option SignupReq) (env : Env) (gw : GwOracle) :
    HttpResponse × List GwCall :=
  match event with
  | none => (badJsonResponse, [])
  | some b =>
    if jsFalsyS b.username || jsFalsyS b.password || jsFalsyS b.email then
      (formatErrorResponse
        ⟨"Error", "Missing required fields: username, password, and email are required"⟩ 400, [])
    else if !validateEmail (b.email.getD "") then
      (formatErrorResponse ⟨"Error", "Invalid email format"⟩ 400, [])
    else if !(validatePassword (b.password.getD "")).valid then
      (formatErrorResponse
        ⟨"Error", "Password validation failed: " ++
          String.intercalate ", " (validatePassword (b.password.getD "")).errors⟩ 400, [])
    else if configMissing env then (configErrorResponse, [])
    else
      let call := GwCall.register (b.username.getD "") (b.password.getD "")
        (b.email.getD "") b.attributes
      match gw call with
      | .ok result => (formatSuccessResponse result 200, [call])
      | .error e => (signupCatch e, [call])

/-- Catch clause of the MFA handler (mfa.ts). -/
def mfaCatch (e : ErrObj) : HttpResponse :=
  if e.name = "CodeMismatchException" then
    formatErrorResponse ⟨"Error", "Invalid MFA code provided"⟩ 401
  else if e.name = "ExpiredCodeException" then
    formatErrorResponse ⟨"Error", "MFA code has expired. Please request a new code"⟩ 401
  else if e.name = "NotAuthorizedException" then
    formatErrorResponse ⟨"Error", "Invalid session or MFA code"⟩ 401
  else if e.name = "InvalidParameterException" then
    formatErrorResponse ⟨"Error", "Invalid parameter provided"⟩ 400
  else if e.name = "TooManyRequestsException" then
    formatErrorResponse ⟨"Error", "Too many requests. Please try again later"⟩ 429
  else if e.name = "UserNotFoundException" then
    formatErrorResponse ⟨"Error", "User not found"⟩ 404
  else if e.name = "UserNotConfirmedException" then
    formatErrorResponse ⟨"Error", "User account is not confirmed. Please verify your email"⟩ 403
  else
    formatErrorResponse ⟨"Error", "An unexpected error occurred during MFA verification"⟩ 500

/-- Parsed MFA request body. -/
structure MfaReq where
  session : Option String
  mfaCode : Option String
  username : Option String
deriving DecidableEq, Repr

/-- Embedding of the MFA handler (mfa.ts). -/
def mfaHandler (event : Option MfaReq) (env : Env) (gw : GwOracle) :
    HttpResponse × List GwCall :=
  match event with
  | none => (badJsonResponse, [])
  | some b =>
    if jsFalsyS b.session || jsFalsyS b.mfaCode || jsFalsyS b.username then
      (formatErrorResponse
        ⟨"Error", "Missing required fields: session, mfaCode, and username are required"⟩ 400, [])
    else if configMissing env then (configErrorResponse, [])
    else
      let call := GwCall.respondToChallenge (b.session.getD "") (b.mfaCode.getD "")
        (b.username.getD "")
      match gw call with
      | .ok result => (formatSuccessResponse result 200, [call])
      | .error e => (mfaCatch e, [call])

/-- Catch clause of the set-new-password handler. -/
def setPasswordCatch (e : ErrObj) : HttpResponse :=
  if e.name = "NotAuthorizedException" then
    formatErrorResponse ⟨"Error", "Invalid previous password or session"⟩ 401
  else if e.name = "InvalidPasswordException" then
    formatErrorResponse ⟨"Error", "New password does not meet requirements"⟩ 400
  else if e.name = "InvalidParameterException" then
    formatErrorResponse ⟨"Error", "Invalid parameter provided"⟩ 400
  else if e.name = "LimitExceededException" then
    formatErrorResponse ⟨"Error", "Attempt limit exceeded. Please try again later"⟩ 429
  else if e.name = "TooManyRequestsException" then
    formatErrorResponse ⟨"Error", "Too many requests. Please try again later"⟩ 429
  else if e.name = "UserNotFoundException" then
    formatErrorResponse ⟨"Error", "User not found"⟩ 404
  else if e.name = "UserNotConfirmedException" then
    formatErrorResponse ⟨"Error", "User account is not confirmed. Please verify your email"⟩ 403
  else
    formatErrorResponse ⟨"Error", "An unexpected error occurred during password change"⟩ 500

/-- Parsed set-new-password request body. -/
structure SetPasswordReq where
  username : Option String
  previousPassword : Option String
  proposedPassword : Option String
  session : Option String
deriving DecidableEq, Repr

/-- Embedding of the set-new-password handler. -/
def setPasswordHandler (event : Option SetPasswordReq) (env : Env) (gw : GwOracle) :
    HttpResponse × List GwCall :=
  match event with
  | none => (badJsonResponse, [])
  | some b =>
    if jsFalsyS b.username || jsFalsyS b.previousPassword ||
        jsFalsyS b.proposedPassword || jsFalsyS b.session then
      (formatErrorResponse
        ⟨"Error",
         "Missing required fields: username, previousPassword, proposedPassword, and session are required"⟩
        400, [])
    else if !(validatePassword (b.proposedPassword.getD "")).valid then
      (formatErrorResponse
        ⟨"Error", "Password does not meet requirements: " ++
          String.intercalate ", " (validatePassword (b.proposedPassword.getD "")).errors⟩ 400, [])
    else if configMissing env then (configErrorResponse, [])
    else
      let call := GwCall.changePassword (b.previousPassword.getD "")
        (b.proposedPassword.getD "") (b.session.getD "")
      match gw call with
      | .ok _ => (formatSuccessResponse
          (.jobj (mkObj [("message", .js "Password changed successfully")])) 200, [call])
      | .error e => (setPasswordCatch e, [call])

/-- Catch clause of the reset-password handler (reset_password.ts). -/
def resetCatch (e : ErrObj) : HttpResponse :=
  if e.name = "UserNotFoundException" then
    formatErrorResponse ⟨"Error", "User not found"⟩ 404
  else if e.name = "CodeMismatchException" then
    formatErrorResponse ⟨"Error", "Invalid verification code"⟩ 400
  else if e.name = "ExpiredCodeException" then
    formatErrorResponse ⟨"Error", "Verification code has expired. Please request a new code"⟩ 400
  else if e.name = "InvalidPasswordException" then
    formatErrorResponse ⟨"Error", "New password does not meet requirements"⟩ 400
  else if e.name = "InvalidParameterException" then
    formatErrorResponse ⟨"Error", "Invalid parameter provided"⟩ 400
  else if e.name = "LimitExceededException" then
    formatErrorResponse ⟨"Error", "Attempt limit exceeded. Please try again later"⟩ 429
  else if e.name = "TooManyRequestsException" then
    formatErrorResponse ⟨"Error", "Too many requests. Please try again later"⟩ 429
  else if e.name = "TooManyFailedAttemptsException" then
    formatErrorResponse ⟨"Error", "Too many failed attempts. Please try again later"⟩ 429
  else if e.name = "NotAuthorizedException" then
    formatErrorResponse ⟨"Error", "Password reset not authorized for this user"⟩ 403
  else if e.name = "UserNotConfirmedException" then
    formatErrorResponse ⟨"Error", "User account is not confirmed. Please verify your email first"⟩ 403
  else
    formatErrorResponse ⟨"Error", "An unexpected error occurred during password reset"⟩ 500

/-- Parsed reset-password request body. -/
structure ResetReq where
  operation : Option String
  username : Option String
  code : Option String
  newPassword : Option String
deriving DecidableEq, Repr

/-- Embedding of the reset-password handler (reset_password.ts):
operation and username are validated before the configuration check,
the confirm-specific fields and the password policy after it. -/
def resetPasswordHandler (event : Option ResetReq) (env : Env) (gw : GwOracle) :
    HttpResponse × List GwCall :=
  match event with
  | none => (badJsonResponse, [])
  | some b =>
    if jsFalsyS b.operation ||
        !(b.operation = some "initiate" || b.operation = some "confirm") then
      (formatErrorResponse
        ⟨"Error", "Invalid operation: must be \"initiate\" or \"confirm\""⟩ 400, [])
    else if jsFalsyS b.username then
      (formatErrorResponse ⟨"Error", "Missing required field: username is required"⟩ 400, [])
    else if configMissing env then (configErrorResponse, [])
    else if b.operation = some "initiate" then
      let call := GwCall.initiateReset (b.username.getD "")
      match gw call with
      | .ok _ => (formatSuccessResponse
          (.jobj (mkObj [("message", .js "Password reset code sent successfully")])) 200, [call])
      | .error e => (resetCatch e, [call])
    else if b.operation = some "confirm" then
      if jsFalsyS b.code || jsFalsyS b.newPassword then
        (formatErrorResponse
          ⟨"Error",
           "Missing required fields: code and newPassword are required for confirm operation"⟩
          400, [])
      else if !(validatePassword (b.newPassword.getD "")).valid then
        (formatErrorResponse
          ⟨"Error", "Password does not meet requirements: " ++
            String.intercalate ", " (validatePassword (b.newPassword.getD "")).errors⟩ 400, [])
      else
        let call := GwCall.confirmReset (b.username.getD "") (b.code.getD "")
          (b.newPassword.getD "")
        match gw call with
        | .ok _ => (formatSuccessResponse
            (.jobj (mkObj [("message", .js "Password reset successfully")])) 200, [call])
        | .error e => (resetCatch e, [call])
    else
      (formatErrorResponse ⟨"Error", "Invalid operation"⟩ 400, [])

/-- Embedding of JavaScript `String.trim()`: removes leading and
trailing whitespace characters. -/
def jsTrimList (l : List Char) : List Char :=
  ((l.dropWhile jsSpace).reverse.dropWhile jsSpace).reverse

/-- Catch clause of the verification handler (verification_code.ts). -/
def verifyCatch (e : ErrObj) : HttpResponse :=
  if e.name = "CodeMismatchException" then
    formatErrorResponse ⟨"Error", "Invalid verification code"⟩ 400
  else if e.name = "ExpiredCodeException" then
    formatErrorResponse ⟨"Error", "Verification code has expired"⟩ 400
  else if e.name = "UserNotFoundException" then
    formatErrorResponse ⟨"Error", "User not found"⟩ 404
  else if e.name = "NotAuthorizedException" then
    formatErrorResponse ⟨"Error", "User is already confirmed"⟩ 400
  else if e.name = "TooManyFailedAttemptsException" then
    formatErrorResponse ⟨"Error", "Too many failed attempts. Please try again later"⟩ 429
  else if e.name = "TooManyRequestsException" then
    formatErrorResponse ⟨"Error", "Too many requests. Please try again later"⟩ 429
  else if e.name = "LimitExceededException" then
    formatErrorResponse ⟨"Error", "Verification limit exceeded. Please try again later"⟩ 429
  else
    formatErrorResponse ⟨"Error", "An unexpected error occurred during verification"⟩ 500

/-- Parsed verification request body. -/
structure VerifyReq where
  username : Option String
  code : Option String
deriving DecidableEq, Repr

/-- Embedding of the verification handler (verification_code.ts):
after the truthiness check on both fields, the code is additionally
rejected when it is empty after trimming, and the trimmed code is what
is passed to the gateway. -/
def verifyHandler (event : Option VerifyReq) (env : Env) (gw : GwOracle) :
    HttpResponse × List GwCall :=
  match event with
  | none => (badJsonResponse, [])
  | some b =>
    if jsFalsyS b.username || jsFalsyS b.code then
      (formatErrorResponse
        ⟨"Error", "Missing required fields: username and code are required"⟩ 400, [])
    else if (jsTrimList (b.code.getD "").data).isEmpty then
      (formatErrorResponse ⟨"Error", "Invalid verification code format"⟩ 400, [])
    else if configMissing env then (configErrorResponse, [])
    else
      let call := GwCall.verifyCode (b.username.getD "")
        ⟨jsTrimList (b.code.getD "").data⟩
      match gw call with
      | .ok _ => (formatSuccessResponse
          (.jobj (mkObj [("message", .js "User verification successful")])) 200, [call])
      | .error e => (verifyCatch e, [call])

/-- Raw reply of the identity provider to `InitiateAuth`, as read by
`Cognito.login` (Cognito.ts). -/
structure ProviderAuthResp where
  ChallengeName : Option String
  Session : Option String
  AccessToken : Option String
  IdToken : Option String
  RefreshToken : Option String
  ExpiresIn : Option Int
  TokenType : Option String
deriving DecidableEq, Repr

/-- Embedding of `Cognito.login` (Cognito.ts): when the provider reply
carries a truthy challenge name (`if (response.ChallengeName)` — the
field must be present and nonempty), it throws an error whose message
is the template literal `MFA_REQUIRED:${response.Session}` (an absent
session prints as `undefined`); otherwise it returns the token bundle
with the documented defaults. -/
def cognitoLogin (resp : ProviderAuthResp) : GwOutcome :=
  if !jsFalsyS resp.ChallengeName then
    .error ⟨"Error", mfaMark ++ (match resp.Session with
      | some s => s
      | none => "undefined")⟩
  else
    .ok (.jobj (mkObj
      [("accessToken", .js (resp.AccessToken.getD "")),
       ("idToken", .js (resp.IdToken.getD "")),
       ("refreshToken", .js (resp.RefreshToken.getD "")),
       ("expiresIn", .jn (resp.ExpiresIn.getD 0)),
       ("tokenType", .js (resp.TokenType.getD "Bearer"))]))

example :
    (loginHandler (some ⟨some "alice", some "pw"⟩)
      ⟨some "pool", some "client", none, none⟩
      (fun _ => cognitoLogin ⟨some "SMS_MFA", some "sess123", none, none, none, none, none⟩)).1 =
    formatSuccessResponse (mfaChallengeBody "sess123") 200 := by decide

example :
    (loginHandler (some ⟨some "alice", some "pw"⟩)
      ⟨some "pool", some "client", none, none⟩
      (fun _ => cognitoLogin ⟨some "SMS_MFA", some "ab:cd", none, none, none, none, none⟩)).1 =
    formatSuccessResponse (mfaChallengeBody "ab") 200 := by decide

example :
    (loginHandler none ⟨none, none, none, none⟩ (fun _ => .ok .null)).1.statusCode = 400 := by
  decide

example :
    containsCI "session"
      ((loginHandler (some ⟨some "alice", some "pw"⟩)
        ⟨some "pool", some "client", none, none⟩
        (fun _ => .error ⟨"Error", "MFA_REQUIRED:sess123"⟩)).1.body) = true := by decide

example :
    (containsCI "password" (loginCatch ⟨"NotAuthorizedException", "boom"⟩).body = false) ∧
    (loginCatch ⟨"NotAuthorizedException", "x"⟩ = loginCatch ⟨"UserNotFoundException", "y"⟩) := by
  constructor <;> decide

/-! Helper lemmas bridging the implementation's Bool character-class
tests and their propositional readings. -/

theorem anyUpper_iff (l : List Char) : l.any upperAZ = true ↔
    ∃ c ∈ l, 'A' ≤ c ∧ c ≤ 'Z' := by
  simp [List.any_eq_true, upperAZ]

theorem anyLower_iff (l : List Char) : l.any lowerAZ = true ↔
    ∃ c ∈ l, 'a' ≤ c ∧ c ≤ 'z' := by
  simp [List.any_eq_true, lowerAZ]

theorem anyDigit_iff (l : List Char) : l.any digit09 = true ↔
    ∃ c ∈ l, '0' ≤ c ∧ c ≤ '9' := by
  simp [List.any_eq_true, digit09]

theorem symbolChar_iff (c : Char) : symbolChar c = true ↔
    (¬('A' ≤ c ∧ c ≤ 'Z') ∧ ¬('a' ≤ c ∧ c ≤ 'z') ∧ ¬('0' ≤ c ∧ c ≤ '9')) := by
  simp only [symbolChar, upperAZ, lowerAZ, digit09, Bool.not_eq_true',
    Bool.or_eq_false_iff, Bool.and_eq_false_iff, decide_eq_false_iff_not,
    not_and_or, and_assoc]

theorem anySymbol_iff (l : List Char) : l.any symbolChar = true ↔
    ∃ c ∈ l, ¬('A' ≤ c ∧ c ≤ 'Z') ∧ ¬('a' ≤ c ∧ c ≤ 'z') ∧ ¬('0' ≤ c ∧ c ≤ '9') := by
  simp only [List.any_eq_true, symbolChar_iff]

/-- Eliminates an if-then-else equation whose else branch is a
nonempty error list. -/
theorem ite_nil_elim {P : Prop} [Decidable P] {msg : String}
    (h : (if P then ([] : List String) else [msg]) = []) : P := by
  by_cases hp : P
  · exact hp
  · rw [if_neg hp] at h
    simp at h

/-- Claim C2: for every password string, `validatePassword` returns
`valid = true` iff the string has length at least 12 and contains an
uppercase letter, a lowercase letter, a digit and a non-alphanumeric
symbol; the error list is exactly the list of the violated checks'
messages, in order; all five checks are evaluated against the string
unconditionally, so the empty string fails all five. -/
theorem validatePassword_spec :
    (∀ s : String,
      ((validatePassword s).valid = true ↔
        (12 ≤ s.length ∧ (∃ c ∈ s.data, 'A' ≤ c ∧ c ≤ 'Z') ∧
         (∃ c ∈ s.data, 'a' ≤ c ∧ c ≤ 'z') ∧ (∃ c ∈ s.data, '0' ≤ c ∧ c ≤ '9') ∧
         (∃ c ∈ s.data, ¬('A' ≤ c ∧ c ≤ 'Z') ∧ ¬('a' ≤ c ∧ c ≤ 'z') ∧
           ¬('0' ≤ c ∧ c ≤ '9')))) ∧
      ((validatePassword s).errors =
        (if 12 ≤ s.length then [] else [pwMsgLen]) ++
        (if ∃ c ∈ s.data, 'A' ≤ c ∧ c ≤ 'Z' then [] else [pwMsgUpper]) ++
        (if ∃ c ∈ s.data, 'a' ≤ c ∧ c ≤ 'z' then [] else [pwMsgLower]) ++
        (if ∃ c ∈ s.data, '0' ≤ c ∧ c ≤ '9' then [] else [pwMsgNum]) ++
        (if ∃ c ∈ s.data, ¬('A' ≤ c ∧ c ≤ 'Z') ∧ ¬('a' ≤ c ∧ c ≤ 'z') ∧
            ¬('0' ≤ c ∧ c ≤ '9') then [] else [pwMsgSym]))) ∧
    validatePassword "" =
      { valid := false,
        errors := [pwMsgLen, pwMsgUpper, pwMsgLower, pwMsgNum, pwMsgSym] } := by
  constructor
  · intro s
    have hlen : (s = "" ∨ s.data.length < 12) ↔ ¬ (12 ≤ s.length) := by
      constructor
      · rintro (e | h)
        · subst e; decide
        · intro h2
          have h3 : 12 ≤ s.data.length := h2
          omega
      · intro h
        right
        have h2 : ¬ 12 ≤ s.data.length := h
        omega
    have hflip : (if s = "" ∨ s.data.length < 12 then [pwMsgLen] else []) =
        (if 12 ≤ s.length then [] else [pwMsgLen]) := by
      by_cases h : 12 ≤ s.length
      · rw [if_neg (fun hc => (hlen.mp hc) h), if_pos h]
      · rw [if_pos (hlen.mpr h), if_neg h]
    constructor
    · simp only [validatePassword, Bool.or_eq_true, decide_eq_true_eq,
        anyUpper_iff, anyLower_iff, anyDigit_iff, anySymbol_iff, hflip,
        List.isEmpty_iff, List.append_eq_nil]
      constructor
      · rintro ⟨⟨⟨⟨e1, e2⟩, e3⟩, e4⟩, e5⟩
        exact ⟨ite_nil_elim e1, ite_nil_elim e2, ite_nil_elim e3,
          ite_nil_elim e4, ite_nil_elim e5⟩
      · rintro ⟨g1, g2, g3, g4, g5⟩
        exact ⟨⟨⟨⟨if_pos g1, if_pos g2⟩, if_pos g3⟩, if_pos g4⟩, if_pos g5⟩
    · simp only [validatePassword, Bool.or_eq_true, decide_eq_true_eq,
        anyUpper_iff, anyLower_iff, anyDigit_iff, anySymbol_iff, hflip]
  · decide

/-! Lemmas about `jsSplit`, used for the email regex and for the login
handler's `split(':')[1]` session extraction. -/

theorem jsSplit_ne_nil (sep : Char) (l : List Char) : jsSplit sep l ≠ [] := by
  cases l with
  | nil => simp [jsSplit]
  | cons c cs =>
    by_cases h : c = sep
    · simp [jsSplit, h]
    · simp only [jsSplit, if_neg h]
      rcases heq : jsSplit sep cs with _ | ⟨a, t⟩ <;> simp

theorem jsSplit_no_sep {sep : Char} {l : List Char} (h : sep ∉ l) :
    jsSplit sep l = [l] := by
  induction l with
  | nil => rfl
  | cons c cs ih =>
    have hc : ¬ c = sep := fun e => h (by simp [e])
    have hcs : sep ∉ cs := fun m => h (List.mem_cons_of_mem _ m)
    simp only [jsSplit, if_neg hc, ih hcs]

theorem jsSplit_append_sep {sep : Char} {a : List Char} (b : List Char)
    (h : sep ∉ a) : jsSplit sep (a ++ sep :: b) = a :: jsSplit sep b := by
  induction a with
  | nil => simp [jsSplit]
  | cons x xs ih =>
    have hx : ¬ x = sep := fun e => h (by simp [e])
    have hxs : sep ∉ xs := fun m => h (List.mem_cons_of_mem _ m)
    simp only [List.cons_append, jsSplit, if_neg hx, List.append_eq]
    rw [ih hxs]

theorem jsSplit_eq_one {sep : Char} {l r : List Char}
    (h : jsSplit sep l = [r]) : l = r ∧ sep ∉ r := by
  induction l generalizing r with
  | nil =>
    simp only [jsSplit, List.cons.injEq] at h
    exact ⟨h.1.symm ▸ rfl, by rw [← h.1]; simp⟩
  | cons c cs ih =>
    by_cases hc : c = sep
    · simp only [jsSplit, if_pos hc, List.cons.injEq] at h
      exact absurd h.2 (jsSplit_ne_nil sep cs)
    · simp only [jsSplit, if_neg hc] at h
      rcases hsplit : jsSplit sep cs with _ | ⟨p, t⟩
      · exact absurd hsplit (jsSplit_ne_nil sep cs)
      · rw [hsplit] at h
        simp only [List.cons.injEq] at h
        rcases h with ⟨h1, h2⟩
        subst h2
        have h3 := ih hsplit
        constructor
        · rw [← h1, h3.1]
        · rw [← h1]
          intro hm
          rcases List.mem_cons.mp hm with e | m
          · exact hc e.symm
          · exact h3.2 m

theorem dotNotLast_iff (l : List Char) :
    dotNotLast l = true ↔ ∃ b c, l = b ++ '.' :: c ∧ c ≠ [] := by
  induction l with
  | nil =>
    simp only [dotNotLast, Bool.false_eq_true, false_iff]
    rintro ⟨b, c, h, hc⟩
    exact absurd h.symm (by simp)
  | cons x tl ih =>
    cases tl with
    | nil =>
      simp only [dotNotLast, Bool.false_eq_true, false_iff]
      rintro ⟨b, c, h, hc⟩
      rcases b with _ | ⟨y, ys⟩
      · simp at h
        exact hc h.2
      · simp at h
    | cons d tl2 =>
      simp only [dotNotLast, Bool.or_eq_true, decide_eq_true_eq]
      constructor
      · rintro (hx | hrec)
        · exact ⟨[], d :: tl2, by simp [hx], by simp⟩
        · rcases (ih.mp hrec) with ⟨b, c, h, hc⟩
          exact ⟨x :: b, c, by simp [h], hc⟩
      · rintro ⟨b, c, h, hc⟩
        rcases b with _ | ⟨y, ys⟩
        · simp at h
          exact Or.inl h.1
        · simp at h
          exact Or.inr (ih.mpr ⟨ys, c, h.2, hc⟩)

theorem midDot_iff (l : List Char) :
    midDot l = true ↔ ∃ b c, l = b ++ '.' :: c ∧ b ≠ [] ∧ c ≠ [] := by
  cases l with
  | nil =>
    simp only [midDot, dotNotLast, Bool.false_eq_true, false_iff]
    rintro ⟨b, c, h, hb, hc⟩
    exact absurd h.symm (by simp)
  | cons x tl =>
    simp only [midDot, dotNotLast_iff]
    constructor
    · rintro ⟨b, c, h, hc⟩
      exact ⟨x :: b, c, by simp [h], by simp, hc⟩
    · rintro ⟨b, c, h, hb, hc⟩
      rcases b with _ | ⟨y, ys⟩
      · exact absurd rfl hb
      · simp at h
        exact ⟨ys, c, h.2, hc⟩

theorem jsSplit_eq_two {sep : Char} {l a r : List Char}
    (h : jsSplit sep l = [a, r]) : l = a ++ sep :: r ∧ sep ∉ a ∧ sep ∉ r := by
  induction l generalizing a with
  | nil => simp [jsSplit] at h
  | cons c cs ih =>
    by_cases hc : c = sep
    · simp only [jsSplit, if_pos hc, List.cons.injEq] at h
      obtain ⟨h1, h2⟩ := h
      have h3 := jsSplit_eq_one h2
      refine ⟨?_, ?_, h3.2⟩
      · rw [← h1, hc, h3.1]
        rfl
      · rw [← h1]
        simp
    · simp only [jsSplit, if_neg hc] at h
      rcases hsplit : jsSplit sep cs with _ | ⟨p, t⟩
      · exact absurd hsplit (jsSplit_ne_nil sep cs)
      · rw [hsplit] at h
        simp only [List.cons.injEq] at h
        obtain ⟨h1, h2⟩ := h
        rw [h2] at hsplit
        have h3 := ih hsplit
        refine ⟨?_, ?_, h3.2.2⟩
        · rw [← h1, h3.1]
          rfl
        · rw [← h1]
          intro hm
          rcases List.mem_cons.mp hm with e | m
          · exact hc e.symm
          · exact h3.2.1 m

/-- Bridge between the Bool segment-character test and its reading. -/
theorem emailChar_iff (x : Char) :
    emailChar x = true ↔ (¬ jsSpace x = true ∧ x ≠ '@') := by
  simp [emailChar]

/-- The shape the spec ascribes to accepted email addresses: one or
more non-whitespace-non-at characters, an at sign, one or more such
characters, a dot, and one or more such characters. -/
def emailShape (s : String) : Prop :=
  ∃ a b c : List Char,
    s.data = a ++ '@' :: (b ++ '.' :: c) ∧
    a ≠ [] ∧ b ≠ [] ∧ c ≠ [] ∧
    (∀ x ∈ a, ¬ jsSpace x = true ∧ x ≠ '@') ∧
    (∀ x ∈ b, ¬ jsSpace x = true ∧ x ≠ '@') ∧
    (∀ x ∈ c, ¬ jsSpace x = true ∧ x ≠ '@')

theorem validateEmail_iff (s : String) : validateEmail s = true ↔ emailShape s := by
  rcases hsp : jsSplit '@' s.data with _ | ⟨a, _ | ⟨r, _ | ⟨x3, rest⟩⟩⟩
  · exact absurd hsp (jsSplit_ne_nil '@' s.data)
  · have h1 := jsSplit_eq_one hsp
    simp only [validateEmail, hsp, Bool.false_eq_true, false_iff]
    rintro ⟨a', b', c', heq, -, -, -, -, -, -⟩
    have : '@' ∈ s.data := by
      rw [heq]
      simp
    rw [h1.1] at this
    exact h1.2 this
  · simp only [validateEmail, hsp]
    have h2 := jsSplit_eq_two hsp
    constructor
    · intro hcond
      simp only [Bool.and_eq_true, Bool.not_eq_true', List.isEmpty_eq_false,
        List.all_eq_true] at hcond
      obtain ⟨⟨⟨⟨hane, halla⟩, hrne⟩, hallr⟩, hmid⟩ := hcond
      obtain ⟨b, c, hrdec, hbne, hcne⟩ := (midDot_iff r).mp hmid
      refine ⟨a, b, c, ?_, hane, hbne, hcne, ?_, ?_, ?_⟩
      · rw [h2.1, hrdec]
      · intro x hx
        exact (emailChar_iff x).mp (halla x hx)
      · intro x hx
        refine (emailChar_iff x).mp (hallr x ?_)
        rw [hrdec]
        exact List.mem_append.mpr (Or.inl hx)
      · intro x hx
        refine (emailChar_iff x).mp (hallr x ?_)
        rw [hrdec]
        simp [hx]
    · rintro ⟨a', b', c', heq, hane, hbne, hcne, ha', hb', hc'⟩
      have hna : '@' ∉ a' := fun m => (ha' _ m).2 rfl
      have hnr : '@' ∉ b' ++ '.' :: c' := by
        intro m
        rcases List.mem_append.mp m with m1 | m2
        · exact (hb' _ m1).2 rfl
        · rcases List.mem_cons.mp m2 with e | m3
          · exact absurd e.symm (by decide)
          · exact (hc' _ m3).2 rfl
      have hs2 : jsSplit '@' s.data = [a', b' ++ '.' :: c'] := by
        rw [heq, jsSplit_append_sep _ hna, jsSplit_no_sep hnr]
      rw [hsp] at hs2
      simp only [List.cons.injEq, and_true] at hs2
      obtain ⟨haa, hrr⟩ := hs2
      simp only [Bool.and_eq_true, Bool.not_eq_true', List.isEmpty_eq_false,
        List.all_eq_true]
      refine ⟨⟨⟨⟨?_, ?_⟩, ?_⟩, ?_⟩, ?_⟩
      · rw [haa]
        exact hane
      · intro x hx
        rw [haa] at hx
        exact (emailChar_iff x).mpr (ha' x hx)
      · rw [hrr]
        simp
      · intro x hx
        rw [hrr] at hx
        rcases List.mem_append.mp hx with m1 | m2
        · exact (emailChar_iff x).mpr (hb' x m1)
        · rcases List.mem_cons.mp m2 with e | m3
          · rw [e]
            decide
          · exact (emailChar_iff x).mpr (hc' x m3)
      · rw [hrr]
        exact (midDot_iff _).mpr ⟨b', c', rfl, hbne, hcne⟩
  · simp only [validateEmail, hsp, Bool.false_eq_true, false_iff]
    rintro ⟨a', b', c', heq, -, -, -, ha', hb', hc'⟩
    have hna : '@' ∉ a' := fun m => (ha' _ m).2 rfl
    have hnr : '@' ∉ b' ++ '.' :: c' := by
      intro m
      rcases List.mem_append.mp m with m1 | m2
      · exact (hb' _ m1).2 rfl
      · rcases List.mem_cons.mp m2 with e | m3
        · exact absurd e.symm (by decide)
        · exact (hc' _ m3).2 rfl
    have : jsSplit '@' s.data = [a', b' ++ '.' :: c'] := by
      rw [heq, jsSplit_append_sep _ hna, jsSplit_no_sep hnr]
    rw [hsp] at this
    simp at this

/-- Claim C8: `validateEmail` accepts exactly the strings of shape
one-or-more non-whitespace-non-at characters, an at sign, one-or-more
such characters, a dot, and one-or-more such characters; consequently
it rejects every string that lacks an at sign, lacks a dot after the
at sign, contains whitespace, or contains a second at sign, and it
accepts "a@b.c". -/
theorem validateEmail_spec :
    (∀ s : String, validateEmail s = true ↔ emailShape s) ∧
    validateEmail "a@b.c" = true ∧
    (∀ s : String, '@' ∉ s.data → validateEmail s = false) ∧
    (∀ s : String, (∀ x y : List Char, s.data = x ++ '@' :: y → '.' ∉ y) →
      validateEmail s = false) ∧
    (∀ s : String, (∃ x ∈ s.data, jsSpace x = true) → validateEmail s = false) ∧
    (∀ s : String, 2 ≤ s.data.count '@' → validateEmail s = false) := by
  refine ⟨validateEmail_iff, by decide, ?_, ?_, ?_, ?_⟩
  · intro s hno
    by_contra hne
    have ht : validateEmail s = true := by
      cases hv : validateEmail s
      · exact absurd hv hne
      · rfl
    obtain ⟨a, b, c, heq, -, -, -, -, -, -⟩ := (validateEmail_iff s).mp ht
    exact hno (by rw [heq]; simp)
  · intro s hno
    by_contra hne
    have ht : validateEmail s = true := by
      cases hv : validateEmail s
      · exact absurd hv hne
      · rfl
    obtain ⟨a, b, c, heq, -, -, -, -, -, -⟩ := (validateEmail_iff s).mp ht
    exact hno a (b ++ '.' :: c) heq (by simp)
  · intro s hsp
    by_contra hne
    have ht : validateEmail s = true := by
      cases hv : validateEmail s
      · exact absurd hv hne
      · rfl
    obtain ⟨a, b, c, heq, -, -, -, ha, hb, hc⟩ := (validateEmail_iff s).mp ht
    obtain ⟨x, hx, hxsp⟩ := hsp
    rw [heq] at hx
    rcases List.mem_append.mp hx with m1 | m2
    · exact (ha x m1).1 hxsp
    · rcases List.mem_cons.mp m2 with e | m3
      · rw [e] at hxsp
        exact absurd hxsp (by decide)
      · rcases List.mem_append.mp m3 with m4 | m5
        · exact (hb x m4).1 hxsp
        · rcases List.mem_cons.mp m5 with e | m6
          · rw [e] at hxsp
            exact absurd hxsp (by decide)
          · exact (hc x m6).1 hxsp
  · intro s hcnt
    by_contra hne
    have ht : validateEmail s = true := by
      cases hv : validateEmail s
      · exact absurd hv hne
      · rfl
    obtain ⟨a, b, c, heq, -, -, -, ha, hb, hc⟩ := (validateEmail_iff s).mp ht
    have hza : a.count '@' = 0 := by
      rw [List.count_eq_zero]
      exact fun m => (ha _ m).2 rfl
    have hzb : b.count '@' = 0 := by
      rw [List.count_eq_zero]
      exact fun m => (hb _ m).2 rfl
    have hzc : c.count '@' = 0 := by
      rw [List.count_eq_zero]
      exact fun m => (hc _ m).2 rfl
    rw [heq] at hcnt
    simp [List.count_append, List.count_cons, hza, hzb, hzc] at hcnt

/-- Unfolding lemma for the truthiness test on a present field. -/
theorem jsFalsyS_some (s : String) : jsFalsyS (some s) = decide (s = "") := rfl

/-- A response body is clean when, lowercase-normalized, it contains
none of the three sensitive substrings. -/
def bodyClean (r : HttpResponse) : Prop :=
  containsCI "password" r.body = false ∧
  containsCI "token" r.body = false ∧
  containsCI "session" r.body = false

set_option maxHeartbeats 2000000 in
theorem loginCatch_clean (e : ErrObj)
    (h : leadsWith mfaMark.data e.message.data = false) :
    bodyClean (loginCatch e) := by
  unfold loginCatch
  rw [if_neg (by simp [h])]
  split_ifs <;> exact ⟨by decide, by decide, by decide⟩

set_option maxHeartbeats 2000000 in
theorem signupCatch_clean (e : ErrObj) : bodyClean (signupCatch e) := by
  unfold signupCatch
  split_ifs <;> exact ⟨by decide, by decide, by decide⟩

set_option maxHeartbeats 2000000 in
theorem mfaCatch_clean (e : ErrObj) : bodyClean (mfaCatch e) := by
  unfold mfaCatch
  split_ifs <;> exact ⟨by decide, by decide, by decide⟩

set_option maxHeartbeats 2000000 in
theorem setPasswordCatch_clean (e : ErrObj) : bodyClean (setPasswordCatch e) := by
  unfold setPasswordCatch
  split_ifs <;> exact ⟨by decide, by decide, by decide⟩

set_option maxHeartbeats 2000000 in
theorem resetCatch_clean (e : ErrObj) : bodyClean (resetCatch e) := by
  unfold resetCatch
  split_ifs <;> exact ⟨by decide, by decide, by decide⟩

set_option maxHeartbeats 2000000 in
theorem verifyCatch_clean (e : ErrObj) : bodyClean (verifyCatch e) := by
  unfold verifyCatch
  split_ifs <;> exact ⟨by decide, by decide, by decide⟩

set_option maxHeartbeats 1000000 in
/-- Claim C1 counterexample: the gateway client's MFA-challenge signal
is an error thrown by the gateway during login (`Cognito.login` throws
`MFA_REQUIRED:<session>`), and the login handler answers it with a 200
envelope whose body does contain the literal substring "session", so
the claim's universal statement is false as written. -/
theorem loginMfa_session_in_body :
    (loginHandler (some ⟨some "alice", some "pw"⟩)
        ⟨some "pool", some "client", none, none⟩
        (fun _ => .error ⟨"Error", "MFA_REQUIRED:sess123"⟩)).1.statusCode = 200 ∧
    containsCI "session"
      ((loginHandler (some ⟨some "alice", some "pw"⟩)
        ⟨some "pool", some "client", none, none⟩
        (fun _ => .error ⟨"Error", "MFA_REQUIRED:sess123"⟩)).1.body) = true :=
  ⟨by decide, by decide⟩

/-- Claim C1 (amended): for every handler and every error thrown by the
gateway client that the handler maps through its error table — that is,
whenever the gateway was actually invoked, and excluding the login
handler's MFA-challenge signal, which becomes a 200 success envelope
carrying a session field — the response body, lowercase-normalized,
contains none of the substrings "password", "token" and "session". -/
theorem handlers_redact_gateway_errors :
    (∀ (ev : Option LoginReq) (env : Env) (e : ErrObj),
      leadsWith mfaMark.data e.message.data = false →
      (loginHandler ev env (fun _ => .error e)).2 ≠ [] →
      bodyClean (loginHandler ev env (fun _ => .error e)).1) ∧
    (∀ (ev : Option SignupReq) (env : Env) (e : ErrObj),
      (signupHandler ev env (fun _ => .error e)).2 ≠ [] →
      bodyClean (signupHandler ev env (fun _ => .error e)).1) ∧
    (∀ (ev : Option MfaReq) (env : Env) (e : ErrObj),
      (mfaHandler ev env (fun _ => .error e)).2 ≠ [] →
      bodyClean (mfaHandler ev env (fun _ => .error e)).1) ∧
    (∀ (ev : Option SetPasswordReq) (env : Env) (e : ErrObj),
      (setPasswordHandler ev env (fun _ => .error e)).2 ≠ [] →
      bodyClean (setPasswordHandler ev env (fun _ => .error e)).1) ∧
    (∀ (ev : Option ResetReq) (env : Env) (e : ErrObj),
      (resetPasswordHandler ev env (fun _ => .error e)).2 ≠ [] →
      bodyClean (resetPasswordHandler ev env (fun _ => .error e)).1) ∧
    (∀ (ev : Option VerifyReq) (env : Env) (e : ErrObj),
      (verifyHandler ev env (fun _ => .error e)).2 ≠ [] →
      bodyClean (verifyHandler ev env (fun _ => .error e)).1) := by
  refine ⟨?_, ?_, ?_, ?_, ?_, ?_⟩
  · intro ev env e hm htr
    rcases ev with _ | b
    · exact absurd rfl htr
    · by_cases h1 : (jsFalsyS b.username = true ∨ jsFalsyS b.password = true)
      · exact absurd (by simp [loginHandler, h1]) htr
      · by_cases h2 : configMissing env = true
        · exact absurd (by simp [loginHandler, h1, h2]) htr
        · have hr : (loginHandler (some b) env (fun _ => .error e)).1 = loginCatch e := by
            simp [loginHandler, h1, h2]
          rw [hr]
          exact loginCatch_clean e hm
  · intro ev env e htr
    rcases ev with _ | b
    · exact absurd rfl htr
    · by_cases h1 : (jsFalsyS b.username = true ∨ jsFalsyS b.password = true ∨ jsFalsyS b.email = true)
      · exact absurd (by simp [signupHandler, or_assoc, h1]) htr
      · by_cases h2 : validateEmail (b.email.getD "") = true
        · by_cases h3 : (validatePassword (b.password.getD "")).valid = true
          · by_cases h4 : configMissing env = true
            · exact absurd (by simp [signupHandler, or_assoc, h1, h2, h3, h4]) htr
            · have hr : (signupHandler (some b) env (fun _ => .error e)).1 = signupCatch e := by
                simp [signupHandler, or_assoc, h1, h2, h3, h4]
              rw [hr]
              exact signupCatch_clean e
          · exact absurd (by simp [signupHandler, or_assoc, h1, h2, h3]) htr
        · exact absurd (by simp [signupHandler, or_assoc, h1, h2]) htr
  · intro ev env e htr
    rcases ev with _ | b
    · exact absurd rfl htr
    · by_cases h1 : (jsFalsyS b.session = true ∨ jsFalsyS b.mfaCode = true ∨ jsFalsyS b.username = true)
      · exact absurd (by simp [mfaHandler, or_assoc, h1]) htr
      · by_cases h2 : configMissing env = true
        · exact absurd (by simp [mfaHandler, or_assoc, h1, h2]) htr
        · have hr : (mfaHandler (some b) env (fun _ => .error e)).1 = mfaCatch e := by
            simp [mfaHandler, or_assoc, h1, h2]
          rw [hr]
          exact mfaCatch_clean e
  · intro ev env e htr
    rcases ev with _ | b
    · exact absurd rfl htr
    · by_cases h1 : (jsFalsyS b.username = true ∨ jsFalsyS b.previousPassword = true ∨
          jsFalsyS b.proposedPassword = true ∨ jsFalsyS b.session = true)
      · exact absurd (by simp [setPasswordHandler, or_assoc, h1]) htr
      · by_cases h2 : (validatePassword (b.proposedPassword.getD "")).valid = true
        · by_cases h3 : configMissing env = true
          · exact absurd (by simp [setPasswordHandler, or_assoc, h1, h2, h3]) htr
          · have hr : (setPasswordHandler (some b) env (fun _ => .error e)).1 =
                setPasswordCatch e := by
              simp [setPasswordHandler, or_assoc, h1, h2, h3]
            rw [hr]
            exact setPasswordCatch_clean e
        · exact absurd (by simp [setPasswordHandler, or_assoc, h1, h2]) htr
  · intro ev env e htr
    rcases ev with _ | b
    · exact absurd rfl htr
    · by_cases h1 : (jsFalsyS b.operation = true ∨
          (¬ b.operation = some "initiate" ∧ ¬ b.operation = some "confirm"))
      · exact absurd (by simp [resetPasswordHandler, jsFalsyS_some, h1]) htr
      · by_cases h2 : jsFalsyS b.username = true
        · exact absurd (by simp [resetPasswordHandler, jsFalsyS_some, h1, h2]) htr
        · by_cases h3 : configMissing env = true
          · exact absurd (by simp [resetPasswordHandler, jsFalsyS_some, h1, h2, h3]) htr
          · by_cases h4 : b.operation = some "initiate"
            · have hr : (resetPasswordHandler (some b) env (fun _ => .error e)).1 =
                  resetCatch e := by
                simp [resetPasswordHandler, jsFalsyS_some, h1, h2, h3, h4]
              rw [hr]
              exact resetCatch_clean e
            · by_cases h5 : b.operation = some "confirm"
              · by_cases h6 : (jsFalsyS b.code = true ∨ jsFalsyS b.newPassword = true)
                · exact absurd (by simp [resetPasswordHandler, jsFalsyS_some, h1, h2, h3, h4, h5, h6]) htr
                · by_cases h7 : (validatePassword (b.newPassword.getD "")).valid = true
                  · have hr : (resetPasswordHandler (some b) env (fun _ => .error e)).1 =
                        resetCatch e := by
                      simp [resetPasswordHandler, jsFalsyS_some, h1, h2, h3, h4, h5, h6, h7]
                    rw [hr]
                    exact resetCatch_clean e
                  · exact absurd
                      (by simp [resetPasswordHandler, jsFalsyS_some, h1, h2, h3, h4, h5, h6, h7]) htr
              · exact absurd (by simp [resetPasswordHandler, jsFalsyS_some, h1, h2, h3, h4, h5]) htr
  · intro ev env e htr
    rcases ev with _ | b
    · exact absurd rfl htr
    · by_cases h1 : (jsFalsyS b.username = true ∨ jsFalsyS b.code = true)
      · exact absurd (by simp [verifyHandler, h1]) htr
      · by_cases h2 : (jsTrimList (b.code.getD "").data).isEmpty = true
        · exact absurd (by simp [verifyHandler, h1, h2]) htr
        · by_cases h3 : configMissing env = true
          · exact absurd (by simp [verifyHandler, h1, h2, h3]) htr
          · have hr : (verifyHandler (some b) env (fun _ => .error e)).1 =
                verifyCatch e := by
              simp [verifyHandler, h1, h2, h3]
            rw [hr]
            exact verifyCatch_clean e

/-! Round-trip lemmas for the JSON serializer and parser. -/

/-- True when the list starts with a decimal digit; used to delimit
greedy number parsing. -/
def digitStart : List Char → Bool
  | [] => false
  | c :: _ => digit09 c

theorem natCharsAux_eq (n : Nat) : ∀ f acc, n < f →
    natCharsAux f n acc = natChars n ++ acc := by
  induction n using Nat.strong_induction_on with
  | _ n ih =>
    intro f acc hf
    rcases f with _ | f
    · omega
    · by_cases h10 : n < 10
      · have hbase : natChars n = [Nat.digitChar n] := by
          simp only [natChars, natCharsAux, if_pos h10]
        simp only [natCharsAux, if_pos h10, hbase]
        rfl
      · have hdiv : n / 10 < n := Nat.div_lt_self (by omega) (by omega)
        have hn : natChars n = natChars (n / 10) ++ [Nat.digitChar (n % 10)] := by
          show natCharsAux (n + 1) n [] = _
          simp only [natCharsAux, if_neg h10]
          exact ih (n / 10) hdiv n _ hdiv
        simp only [natCharsAux, if_neg h10]
        rw [ih (n / 10) hdiv f _ (by omega), hn, List.append_assoc]
        rfl

theorem natChars_head (n : Nat) :
    ∃ c cs, natChars n = c :: cs ∧ digit09 c = true ∧
      (∀ x ∈ natChars n, digit09 x = true) := by
  induction n using Nat.strong_induction_on with
  | _ n ih =>
    by_cases h10 : n < 10
    · have hbase : natChars n = [Nat.digitChar n] := by
        simp only [natChars, natCharsAux, if_pos h10]
      refine ⟨Nat.digitChar n, [], hbase, ?_, ?_⟩
      · interval_cases n <;> decide
      · intro x hx
        rw [hbase] at hx
        simp at hx
        rw [hx]
        interval_cases n <;> decide
    · have hdiv : n / 10 < n := Nat.div_lt_self (by omega) (by omega)
      have hn : natChars n = natChars (n / 10) ++ [Nat.digitChar (n % 10)] := by
        show natCharsAux (n + 1) n [] = _
        simp only [natCharsAux, if_neg h10]
        exact natCharsAux_eq (n / 10) n _ hdiv
      obtain ⟨c, cs, hcons, hc, hall⟩ := ih (n / 10) hdiv
      refine ⟨c, cs ++ [Nat.digitChar (n % 10)], by rw [hn, hcons]; rfl, hc, ?_⟩
      intro x hx
      rw [hn] at hx
      rcases List.mem_append.mp hx with m1 | m2
      · exact hall x m1
      · simp at m2
        rw [m2]
        have : n % 10 < 10 := Nat.mod_lt _ (by omega)
        set m := n % 10 with hm
        interval_cases m <;> decide

theorem natOfChars_natChars (n : Nat) : natOfChars (natChars n) = n := by
  induction n using Nat.strong_induction_on with
  | _ n ih =>
    by_cases h10 : n < 10
    · have hbase : natChars n = [Nat.digitChar n] := by
        simp only [natChars, natCharsAux, if_pos h10]
      rw [hbase]
      simp only [natOfChars, List.foldl]
      interval_cases n <;> decide
    · have hdiv : n / 10 < n := Nat.div_lt_self (by omega) (by omega)
      have hn : natChars n = natChars (n / 10) ++ [Nat.digitChar (n % 10)] := by
        show natCharsAux (n + 1) n [] = _
        simp only [natCharsAux, if_neg h10]
        exact natCharsAux_eq (n / 10) n _ hdiv
      rw [hn]
      simp only [natOfChars] at ih ⊢
      rw [List.foldl_append, ih (n / 10) hdiv]
      simp only [List.foldl]
      have hlt : n % 10 < 10 := Nat.mod_lt _ (by omega)
      have hdc : (Nat.digitChar (n % 10)).toNat - 48 = n % 10 := by
        set m := n % 10 with hm
        interval_cases m <;> decide
      rw [hdc]
      omega

theorem takeWhile_digits (l rest : List Char) (hl : ∀ c ∈ l, digit09 c = true)
    (hr : digitStart rest = false) :
    (l ++ rest).takeWhile digit09 = l ∧ (l ++ rest).dropWhile digit09 = rest := by
  induction l with
  | nil =>
    cases rest with
    | nil => exact ⟨rfl, rfl⟩
    | cons c cs =>
      simp only [digitStart] at hr
      simp [List.takeWhile, List.dropWhile, hr]
  | cons c cs ih =>
    have hc : digit09 c = true := hl c (by simp)
    have hcs : ∀ x ∈ cs, digit09 x = true := fun x hx => hl x (by simp [hx])
    obtain ⟨ht, hd⟩ := ih hcs
    simp [List.cons_append, List.takeWhile, List.dropWhile, List.append_eq, hc, ht, hd]

theorem parseNum_nat (n : Nat) (rest : List Char) (hr : digitStart rest = false) :
    parseNum (natChars n ++ rest) = some ((n : Int), rest) := by
  obtain ⟨c, cs, hcons, hc, hall⟩ := natChars_head n
  obtain ⟨ht, hd⟩ := takeWhile_digits (natChars n) rest hall hr
  have hcm : ¬ c = '-' := by
    intro e
    rw [e] at hc
    exact absurd hc (by decide)
  have ht2 : (c :: (cs ++ rest)).takeWhile digit09 = c :: cs := by
    rw [← List.cons_append, ← hcons]
    exact ht
  have hd2 : (c :: (cs ++ rest)).dropWhile digit09 = rest := by
    rw [← List.cons_append, ← hcons]
    exact hd
  have hv : natOfChars (c :: cs) = n := by
    rw [← hcons]
    exact natOfChars_natChars n
  rw [hcons, List.cons_append]
  simp only [parseNum, if_neg hcm, ht2, hd2, List.isEmpty_cons, hv]
  rfl

theorem parseNum_int (i : Int) (rest : List Char) (hr : digitStart rest = false) :
    parseNum (intChars i ++ rest) = some (i, rest) := by
  by_cases hneg : i < 0
  · obtain ⟨c, cs, hcons, hc, hall⟩ := natChars_head i.natAbs
    obtain ⟨ht, hd⟩ := takeWhile_digits (natChars i.natAbs) rest hall hr
    have ht2 : List.takeWhile digit09 ((c :: cs) ++ rest) = c :: cs := by
      rw [← hcons]
      exact ht
    have hd2 : List.dropWhile digit09 ((c :: cs) ++ rest) = rest := by
      rw [← hcons]
      exact hd
    have hv : natOfChars (c :: cs) = i.natAbs := by
      rw [← hcons]
      exact natOfChars_natChars _
    have habs : ((i.natAbs : Int)) = -i := Int.ofNat_natAbs_of_nonpos (le_of_lt hneg)
    have hcs : ∀ x ∈ cs, digit09 x = true := fun x hx => hall x (by
      rw [hcons]
      exact List.mem_cons_of_mem _ hx)
    obtain ⟨ht3, hd3⟩ := takeWhile_digits cs rest hcs hr
    unfold intChars
    rw [if_pos hneg, List.cons_append, hcons]
    simp [parseNum, hc, ht3, hd3, hv, habs, neg_neg]
  · unfold intChars
    rw [if_neg hneg]
    rw [parseNum_nat i.natAbs rest hr]
    have habs : ((i.natAbs : Int)) = i := Int.natAbs_of_nonneg (by omega)
    rw [habs]

theorem hexRound (n : Nat) (h : n < 32) :
    isHexDig (Nat.digitChar (n / 16)) = true ∧ isHexDig (Nat.digitChar (n % 16)) = true ∧
    hexDigVal (Nat.digitChar (n / 16)) * 16 + hexDigVal (Nat.digitChar (n % 16)) = n := by
  interval_cases n <;> exact ⟨by decide, by decide, by decide⟩

theorem parseStrAux_escape (l rest : List Char) :
    parseStrAux (escapeChars l ++ '"' :: rest) = some (l, rest) := by
  induction l with
  | nil =>
    show parseStrAux ([] ++ '"' :: rest) = some ([], rest)
    rw [List.nil_append, parseStrAux.eq_def]
    simp
  | cons c cs ih =>
    have hesc : escapeChars (c :: cs) = escChar c ++ escapeChars cs := rfl
    rw [hesc, List.append_assoc]
    unfold escChar
    split_ifs with h1 h2 h3 h4 h5 h6 h7 h8
    · subst h1
      rw [List.cons_append, List.cons_append, parseStrAux.eq_def]
      simp [consR, ih]
    · subst h2
      rw [List.cons_append, List.cons_append, parseStrAux.eq_def]
      simp [consR, ih]
    · subst h3
      rw [List.cons_append, List.cons_append, parseStrAux.eq_def]
      simp [consR, ih]
    · subst h4
      rw [List.cons_append, List.cons_append, parseStrAux.eq_def]
      simp [consR, ih]
    · subst h5
      rw [List.cons_append, List.cons_append, parseStrAux.eq_def]
      simp [consR, ih]
    · subst h6
      rw [List.cons_append, List.cons_append, parseStrAux.eq_def]
      simp [consR, ih]
    · subst h7
      rw [List.cons_append, List.cons_append, parseStrAux.eq_def]
      simp [consR, ih]
    · obtain ⟨hx1, hx2, hval⟩ := hexRound c.toNat h8
      have h0 : hexDigVal '0' = 0 := by decide
      have hu : isHexDig '0' = true := by decide
      simp only [List.cons_append]
      rw [parseStrAux.eq_def]
      simp [consR, ih, hx1, hx2, hu, h0, hval, Char.ofNat_toNat]
    · rw [List.cons_append, parseStrAux.eq_def]
      simp [consR, ih, h1, h2]

mutual
/-- Fuel bound sufficient to parse a serialized value. -/
def sizeV : Json → Nat
  | .null => 1
  | .jb _ => 1
  | .jn _ => 1
  | .js _ => 1
  | .jarr a => 1 + sizeA a
  | .jobj o => 1 + sizeO o

/-- Fuel bound sufficient to parse serialized array elements. -/
def sizeA : JArr → Nat
  | .nil => 0
  | .cons h t => 1 + sizeV h + sizeA t

/-- Fuel bound sufficient to parse serialized object fields. -/
def sizeO : JObj → Nat
  | .nil => 0
  | .cons _ v t => 1 + sizeV v + sizeO t
end

theorem sizeV_pos (d : Json) : 1 ≤ sizeV d := by
  cases d <;> simp [sizeV]

/-- Possible first characters of a serialized JSON value. -/
def valHead (c : Char) : Prop :=
  c = 'n' ∨ c = 't' ∨ c = 'f' ∨ c = '"' ∨ c = '[' ∨ c = '{' ∨ c = '-' ∨
    digit09 c = true

theorem digit09_ne_lits {c : Char} (h : digit09 c = true) :
    ¬ c = 'n' ∧ ¬ c = 't' ∧ ¬ c = 'f' ∧ ¬ c = '"' ∧ ¬ c = '[' ∧ ¬ c = '{' ∧
    ¬ c = '-' ∧ ¬ c = ']' ∧ ¬ c = '}' ∧ ¬ c = ',' := by
  refine ⟨?_, ?_, ?_, ?_, ?_, ?_, ?_, ?_, ?_, ?_⟩ <;>
    · intro e
      rw [e] at h
      exact absurd h (by decide)

theorem intChars_head (i : Int) :
    ∃ c cs, intChars i = c :: cs ∧ (c = '-' ∨ digit09 c = true) := by
  by_cases hneg : i < 0
  · exact ⟨'-', natChars i.natAbs, by simp [intChars, hneg], Or.inl rfl⟩
  · obtain ⟨c, cs, hcons, hc, -⟩ := natChars_head i.natAbs
    exact ⟨c, cs, by simp [intChars, hneg, hcons], Or.inr hc⟩

theorem strV_head (d : Json) : ∃ c cs, strV d = c :: cs ∧ valHead c := by
  cases d with
  | null => exact ⟨'n', _, rfl, Or.inl rfl⟩
  | jb b =>
    cases b
    · exact ⟨'f', _, rfl, Or.inr (Or.inr (Or.inl rfl))⟩
    · exact ⟨'t', _, rfl, Or.inr (Or.inl rfl)⟩
  | jn i =>
    obtain ⟨c, cs, hcons, hc⟩ := intChars_head i
    refine ⟨c, cs, by simp [strV, hcons], ?_⟩
    rcases hc with h | h
    · exact Or.inr (Or.inr (Or.inr (Or.inr (Or.inr (Or.inr (Or.inl h))))))
    · exact Or.inr (Or.inr (Or.inr (Or.inr (Or.inr (Or.inr (Or.inr h))))))
  | js s => exact ⟨'"', _, rfl, Or.inr (Or.inr (Or.inr (Or.inl rfl)))⟩
  | jarr a => exact ⟨'[', _, rfl, Or.inr (Or.inr (Or.inr (Or.inr (Or.inl rfl))))⟩
  | jobj o => exact ⟨'{', _, rfl, Or.inr (Or.inr (Or.inr (Or.inr (Or.inr (Or.inl rfl)))))⟩

theorem valHead_ne_close {c : Char} (h : valHead c) : ¬ c = ']' ∧ ¬ c = '}' := by
  rcases h with h | h | h | h | h | h | h | h
  all_goals first
  | (subst h; exact ⟨by decide, by decide⟩)
  | exact ⟨(digit09_ne_lits h).2.2.2.2.2.2.2.1, (digit09_ne_lits h).2.2.2.2.2.2.2.2.1⟩

theorem parse_round (fuel : Nat) :
    (∀ (d : Json) (rest : List Char), sizeV d ≤ fuel → digitStart rest = false →
      parseVal fuel (strV d ++ rest) = some (d, rest)) ∧
    (∀ (h : Json) (t : JArr) (rest : List Char), sizeA (.cons h t) ≤ fuel →
      parseArrTail fuel (strA (.cons h t) ++ ']' :: rest) = some (.cons h t, rest)) ∧
    (∀ (k : String) (v : Json) (t : JObj) (rest : List Char),
      sizeO (.cons k v t) ≤ fuel →
      parseObjTail fuel (strO (.cons k v t) ++ '}' :: rest) =
        some (.cons k v t, rest)) := by
  induction fuel with
  | zero =>
    refine ⟨?_, ?_, ?_⟩
    · intro d rest hsz hr
      exact absurd (le_trans (sizeV_pos d) hsz) (by omega)
    · intro h t rest hsz
      simp [sizeA] at hsz
    · intro k v t rest hsz
      simp [sizeO] at hsz
  | succ f ih =>
    obtain ⟨ihV, ihA, ihO⟩ := ih
    refine ⟨?_, ?_, ?_⟩
    · intro d rest hsz hr
      cases d with
      | null =>
        rw [show strV .null ++ rest = 'n' :: 'u' :: 'l' :: 'l' :: rest from by
          simp [strV]]
        simp [parseVal]
      | jb b =>
        cases b
        · rw [show strV (.jb false) ++ rest = 'f' :: 'a' :: 'l' :: 's' :: 'e' :: rest
            from by simp [strV]]
          simp [parseVal]
        · rw [show strV (.jb true) ++ rest = 't' :: 'r' :: 'u' :: 'e' :: rest
            from by simp [strV]]
          simp [parseVal]
      | jn i =>
        obtain ⟨c, cs, hic, hch⟩ := intChars_head i
        have hpn : parseNum (c :: (cs ++ rest)) = some (i, rest) := by
          rw [← List.cons_append, ← hic]
          exact parseNum_int i rest hr
        have hlits : ¬ c = 'n' ∧ ¬ c = 't' ∧ ¬ c = 'f' ∧ ¬ c = '"' ∧
            ¬ c = '[' ∧ ¬ c = '{' := by
          rcases hch with h | h
          · subst h
            exact ⟨by decide, by decide, by decide, by decide, by decide, by decide⟩
          · have := digit09_ne_lits h
            exact ⟨this.1, this.2.1, this.2.2.1, this.2.2.2.1, this.2.2.2.2.1,
              this.2.2.2.2.2.1⟩
        rw [show strV (.jn i) ++ rest = intChars i ++ rest from by simp [strV],
          hic, List.cons_append]
        simp only [parseVal]
        simp [hlits.1, hlits.2.1, hlits.2.2.1, hlits.2.2.2.1, hlits.2.2.2.2.1,
          hlits.2.2.2.2.2, hpn]
      | js s =>
        rw [show strV (.js s) ++ rest =
          '"' :: (escapeChars s.data ++ '"' :: rest) from by
            simp [strV, List.append_assoc]]
        simp [parseVal, parseStrAux_escape]
      | jarr a =>
        cases a with
        | nil =>
          rw [show strV (.jarr .nil) ++ rest = '[' :: ']' :: rest from by
            simp [strV, strA]]
          simp [parseVal]
        | cons h t =>
          obtain ⟨c2, cs2, hc2, hvh⟩ := strV_head h
          have hX : ∃ X, strA (.cons h t) ++ ']' :: rest = c2 :: X := by
            cases t <;> simp [strA, hc2]
          obtain ⟨X, hXe⟩ := hX
          have hne := valHead_ne_close hvh
          have hsa : sizeA (.cons h t) ≤ f := by
            simp [sizeV] at hsz
            omega
          rw [show strV (.jarr (.cons h t)) ++ rest =
            '[' :: (strA (.cons h t) ++ ']' :: rest) from by
              simp [strV, List.append_assoc], hXe]
          simp only [parseVal]
          simp only [show ¬ ('[' : Char) = 'n' from by decide, if_false,
            show ¬ ('[' : Char) = 't' from by decide,
            show ¬ ('[' : Char) = 'f' from by decide,
            show ¬ ('[' : Char) = '"' from by decide,
            show ('[' : Char) = '[' from rfl, if_true, ite_false, ite_true]
          simp only [if_neg hne.1]
          rw [← hXe, ihA h t rest hsa]
      | jobj o =>
        cases o with
        | nil =>
          rw [show strV (.jobj .nil) ++ rest = '{' :: '}' :: rest from by
            simp [strV, strO]]
          simp [parseVal]
        | cons k v t =>
          have hX : ∃ X, strO (.cons k v t) ++ '}' :: rest = '"' :: X := by
            cases t <;> simp [strO]
          obtain ⟨X, hXe⟩ := hX
          have hso : sizeO (.cons k v t) ≤ f := by
            simp [sizeV] at hsz
            omega
          rw [show strV (.jobj (.cons k v t)) ++ rest =
            '{' :: (strO (.cons k v t) ++ '}' :: rest) from by
              simp [strV, List.append_assoc], hXe]
          simp only [parseVal]
          simp only [show ¬ ('{' : Char) = 'n' from by decide, if_false,
            show ¬ ('{' : Char) = 't' from by decide,
            show ¬ ('{' : Char) = 'f' from by decide,
            show ¬ ('{' : Char) = '"' from by decide,
            show ¬ ('{' : Char) = '[' from by decide,
            show ('{' : Char) = '{' from rfl, if_true, ite_false, ite_true]
          simp only [show ¬ ('"' : Char) = '}' from by decide, if_false, ite_false]
          rw [← hXe, ihO k v t rest hso]
    · intro h t rest hsz
      cases t with
      | nil =>
        have hsv : sizeV h ≤ f := by
          simp [sizeA] at hsz
          omega
        rw [show strA (.cons h .nil) ++ ']' :: rest = strV h ++ ']' :: rest from by
          simp [strA]]
        simp only [parseArrTail]
        rw [ihV h (']' :: rest) hsv (by rfl)]
        simp
      | cons h2 t2 =>
        have hsv : sizeV h ≤ f := by
          simp [sizeA] at hsz
          omega
        have hsa : sizeA (.cons h2 t2) ≤ f := by
          simp [sizeA] at hsz ⊢
          omega
        rw [show strA (.cons h (.cons h2 t2)) ++ ']' :: rest =
          strV h ++ ',' :: (strA (.cons h2 t2) ++ ']' :: rest) from by
            simp [strA, List.append_assoc]]
        simp only [parseArrTail]
        rw [ihV h (',' :: (strA (.cons h2 t2) ++ ']' :: rest)) hsv (by rfl)]
        simp only [ite_true, if_pos (show (',' : Char) = ',' from rfl)]
        rw [ihA h2 t2 rest hsa]
    · intro k v t rest hsz
      cases t with
      | nil =>
        have hsv : sizeV v ≤ f := by
          simp [sizeO] at hsz
          omega
        rw [show strO (.cons k v .nil) ++ '}' :: rest =
          '"' :: (escapeChars k.data ++ '"' :: (':' :: (strV v ++ '}' :: rest)))
            from by simp [strO, List.append_assoc]]
        simp only [parseObjTail]
        simp only [show ('"' : Char) = '"' from rfl, if_true, ite_true]
        rw [parseStrAux_escape]
        simp only [show (':' : Char) = ':' from rfl, if_true, ite_true]
        rw [ihV v ('}' :: rest) hsv (by rfl)]
        simp
      | cons k2 v2 t2 =>
        have hsv : sizeV v ≤ f := by
          simp [sizeO] at hsz
          omega
        have hso : sizeO (.cons k2 v2 t2) ≤ f := by
          simp [sizeO] at hsz ⊢
          omega
        rw [show strO (.cons k v (.cons k2 v2 t2)) ++ '}' :: rest =
          '"' :: (escapeChars k.data ++ '"' ::
            (':' :: (strV v ++ ',' :: (strO (.cons k2 v2 t2) ++ '}' :: rest))))
            from by simp [strO, List.append_assoc]]
        simp only [parseObjTail]
        simp only [show ('"' : Char) = '"' from rfl, if_true, ite_true]
        rw [parseStrAux_escape]
        simp only [show (':' : Char) = ':' from rfl, if_true, ite_true]
        rw [ihV v (',' :: (strO (.cons k2 v2 t2) ++ '}' :: rest)) hsv (by rfl)]
        simp only [ite_true, if_pos (show (',' : Char) = ',' from rfl)]
        rw [ihO k2 v2 t2 rest hso]

mutual
theorem sizeV_le : ∀ d : Json, sizeV d ≤ (strV d).length
  | .null => by simp [sizeV, strV]
  | .jb b => by cases b <;> simp [sizeV, strV]
  | .jn i => by
    simp [sizeV, strV]
    obtain ⟨c, cs, hic, -⟩ := intChars_head i
    simp [hic]
  | .js s => by simp [sizeV, strV]
  | .jarr a => by
    have h := sizeA_le a
    simp only [sizeV, strV, List.length_cons, List.length_append]
    simp at h ⊢
    omega
  | .jobj o => by
    have h := sizeO_le o
    simp only [sizeV, strV, List.length_cons, List.length_append]
    simp at h ⊢
    omega

theorem sizeA_le : ∀ a : JArr, sizeA a ≤ (strA a).length + 1
  | .nil => by simp [sizeA]
  | .cons h .nil => by
    have h1 := sizeV_le h
    simp only [sizeA, strA, sizeA]
    omega
  | .cons h (.cons h2 t) => by
    have h1 := sizeV_le h
    have h2 := sizeA_le (.cons h2 t)
    simp only [sizeA] at h2 ⊢
    simp only [strA, List.length_append, List.length_cons]
    omega

theorem sizeO_le : ∀ o : JObj, sizeO o ≤ (strO o).length + 1
  | .nil => by simp [sizeO]
  | .cons k v .nil => by
    have h1 := sizeV_le v
    simp only [sizeO, strO, List.length_cons, List.length_append]
    omega
  | .cons k v (.cons k2 v2 t) => by
    have h1 := sizeV_le v
    have h2 := sizeO_le (.cons k2 v2 t)
    simp only [sizeO] at h2 ⊢
    simp only [strO, List.length_append, List.length_cons]
    omega
end

/-- Round trip at the string level: parsing a serialized JSON value
recovers it exactly. -/
theorem parseJson_stringify (d : Json) : parseJson (stringifyJson d) = some d := by
  have hsz : sizeV d ≤ (strV d).length + 1 := le_trans (sizeV_le d) (by omega)
  have h := (parse_round ((strV d).length + 1)).1 d [] hsz (by rfl)
  rw [List.append_nil] at h
  simp only [parseJson, stringifyJson, h]

/-- Claim C9: for every JSON-representable data value, parsing the body
string of the envelope returned by `formatSuccessResponse` yields a
value structurally (deep-)equal to the data, and the envelope carries
the given status code and the JSON/CORS headers. -/
theorem formatSuccess_roundtrip :
    ∀ (data : Json) (statusCode : Nat),
      parseJson (formatSuccessResponse data statusCode).body = some data ∧
      (formatSuccessResponse data statusCode).statusCode = statusCode ∧
      (formatSuccessResponse data statusCode).headers = apiHeaders ∧
      ("Content-Type", "application/json") ∈
        (formatSuccessResponse data statusCode).headers := by
  intro d code
  exact ⟨parseJson_stringify d, rfl, rfl, by simp [formatSuccessResponse, apiHeaders]⟩

/-- Claim C10: `formatErrorResponse` sanitizes only the message field;
the error's name is copied verbatim and unredacted into the body's
`error.code` (with the default `InternalError` when the name is empty
or absent), so an error whose name contains "password" yields a body
containing that substring even though the same text would have been
redacted in the message. -/
theorem formatError_code_unredacted :
    (∀ (e : ErrObj) (st : Nat), e.name ≠ "" →
      (formatErrorResponse e st).body =
        stringifyJson (.jobj (mkObj
          [("error", .jobj (mkObj
            [("code", .js e.name),
             ("message", .js (sanitizeMessage e.message))]))]))) ∧
    (∀ (e : ErrObj) (st : Nat), e.name = "" →
      (formatErrorResponse e st).body =
        stringifyJson (.jobj (mkObj
          [("error", .jobj (mkObj
            [("code", .js "InternalError"),
             ("message", .js (sanitizeMessage e.message))]))]))) ∧
    containsCI "password"
      (formatErrorResponse ⟨"PasswordResetRequiredException", "x"⟩ 403).body = true ∧
    containsCI "password"
      (sanitizeMessage "PasswordResetRequiredException") = false := by
  refine ⟨?_, ?_, by decide, by decide⟩
  · intro e st h
    simp [formatErrorResponse, errorBody, h]
  · intro e st h
    simp [formatErrorResponse, errorBody, h]

/-- Witness for the nonempty-name case of the code-field theorem. -/
theorem formatError_code_unredacted_witness :
    (("X" : String) ≠ "") ∧
    (formatErrorResponse ⟨"X", "y"⟩ 500).body =
      stringifyJson (.jobj (mkObj
        [("error", .jobj (mkObj
          [("code", .js "X"),
           ("message", .js (sanitizeMessage "y"))]))])) :=
  ⟨by decide, formatError_code_unredacted.1 ⟨"X", "y"⟩ 500 (by decide)⟩

theorem leadsWith_append (a b : List Char) : leadsWith a (a ++ b) = true := by
  induction a with
  | nil => rfl
  | cons p ps ih => simp [leadsWith, ih]

theorem sessionFromMsg_clean (s : String) (h : (':' : Char) ∉ s.data) :
    sessionFromMsg (mfaMark ++ s) = s := by
  have hdata : (mfaMark ++ s).data = "MFA_REQUIRED".data ++ ':' :: s.data := by
    rw [String.data_append]
    rw [show mfaMark.data = "MFA_REQUIRED".data ++ [':'] from by decide]
    rw [List.append_assoc]
    rfl
  unfold sessionFromMsg
  rw [hdata, jsSplit_append_sep _ (by decide), jsSplit_no_sep h]
  rfl

set_option maxHeartbeats 1000000 in
/-- Claim C3 counterexample: for the provider session token "ab:cd" the
login handler's challenge envelope carries session "ab" — the token is
truncated at the first colon by `split(':')[1]` — so the body's session
field is not equal to the gateway's session token. -/
theorem login_mfa_colon_truncated :
    (loginHandler (some ⟨some "alice", some "pw"⟩)
      ⟨some "pool", some "client", none, none⟩
      (fun _ => cognitoLogin ⟨some "SMS_MFA", some "ab:cd", none, none, none, none, none⟩)).1 =
      formatSuccessResponse (mfaChallengeBody "ab") 200 ∧
    (loginHandler (some ⟨some "alice", some "pw"⟩)
      ⟨some "pool", some "client", none, none⟩
      (fun _ => cognitoLogin ⟨some "SMS_MFA", some "ab:cd", none, none, none, none, none⟩)).1 ≠
      formatSuccessResponse (mfaChallengeBody "ab:cd") 200 :=
  ⟨by decide, by decide⟩

/-- Claim C3 (amended): for every session token that does not contain a
colon, when the gateway signals a challenge during login (a truthy,
i.e. nonempty, challenge name in the provider reply) the handler
returns a 200 success envelope whose body carries challengeName
MFA_REQUIRED and a session field equal to that session token; a token
containing a colon is truncated at its first colon. -/
theorem login_mfa_challenge :
    ∀ (u p pool client : String) (r1 r2 : Option String) (ch sess : String)
      (at1 it1 rt1 : Option String) (ei1 : Option Int) (tt1 : Option String),
      u ≠ "" → p ≠ "" → pool ≠ "" → client ≠ "" → ch ≠ "" →
      (':' : Char) ∉ sess.data →
      loginHandler (some ⟨some u, some p⟩) ⟨some pool, some client, r1, r2⟩
        (fun _ => cognitoLogin ⟨some ch, some sess, at1, it1, rt1, ei1, tt1⟩) =
      (formatSuccessResponse (mfaChallengeBody sess) 200,
        [GwCall.authenticate u p]) := by
  intro u p pool client r1 r2 ch sess at1 it1 rt1 ei1 tt1 hu hp hpool hclient hch hc
  have hlogin : cognitoLogin ⟨some ch, some sess, at1, it1, rt1, ei1, tt1⟩ =
      .error ⟨"Error", mfaMark ++ sess⟩ := by
    simp [cognitoLogin, jsFalsyS_some, hch]
  have hmfa : leadsWith mfaMark.data (mfaMark ++ sess).data = true := by
    rw [String.data_append]
    exact leadsWith_append _ _
  simp only [loginHandler, jsFalsyS_some, hlogin, configMissing]
  rw [if_neg (by simp [hu, hp]), if_neg (by simp [hpool, hclient])]
  simp only [loginCatch, hmfa, if_pos rfl, ite_true, Option.getD_some]
  rw [sessionFromMsg_clean sess hc]

/-- Witness: the amended challenge theorem at the session token
"sess123" of the claim's scenario. -/
theorem login_mfa_challenge_witness :
    (("alice" : String) ≠ "" ∧ ("pw" : String) ≠ "" ∧ ("pool" : String) ≠ "" ∧
      ("client" : String) ≠ "" ∧ ("SMS_MFA" : String) ≠ "" ∧
      (':' : Char) ∉ ("sess123" : String).data) ∧
    loginHandler (some ⟨some "alice", some "pw"⟩)
      ⟨some "pool", some "client", none, none⟩
      (fun _ => cognitoLogin ⟨some "SMS_MFA", some "sess123", none, none, none, none, none⟩) =
    (formatSuccessResponse (mfaChallengeBody "sess123") 200,
      [GwCall.authenticate "alice" "pw"]) :=
  ⟨⟨by decide, by decide, by decide, by decide, by decide, by decide⟩,
    login_mfa_challenge "alice" "pw" "pool" "client" none none "SMS_MFA" "sess123"
      none none none none none (by decide) (by decide) (by decide) (by decide)
      (by decide) (by decide)⟩

/-- Claim C4 counterexample: with the configuration absent, a malformed
JSON body (and likewise a body with missing required fields) yields
status 400, not 500 — the body is parsed and validated before the
configuration check. -/
theorem config_check_after_validation :
    (loginHandler none ⟨none, none, none, none⟩ (fun _ => .ok .null)).1.statusCode = 400 ∧
    ¬ (loginHandler none ⟨none, none, none, none⟩ (fun _ => .ok .null)).1.statusCode = 500 ∧
    (loginHandler (some ⟨none, some "x"⟩) ⟨none, none, none, none⟩
      (fun _ => .ok .null)).1.statusCode = 400 :=
  ⟨by decide, by decide, by decide⟩

/-- Claim C4 (amended): when the pool or client identifier is absent,
each handler returns the 500 "Server configuration error" response and
never invokes the gateway — but only after its body has parsed and its
pre-configuration validations passed; malformed JSON or missing
required fields yield 400 before the configuration is consulted. -/
theorem config_missing_500 :
    (∀ (b : LoginReq) (env : Env) (gw : GwOracle),
      jsFalsyS b.username = false → jsFalsyS b.password = false →
      configMissing env = true →
      loginHandler (some b) env gw = (configErrorResponse, [])) ∧
    (∀ (b : SignupReq) (env : Env) (gw : GwOracle),
      jsFalsyS b.username = false → jsFalsyS b.password = false →
      jsFalsyS b.email = false →
      validateEmail (b.email.getD "") = true →
      (validatePassword (b.password.getD "")).valid = true →
      configMissing env = true →
      signupHandler (some b) env gw = (configErrorResponse, [])) ∧
    (∀ (b : MfaReq) (env : Env) (gw : GwOracle),
      jsFalsyS b.session = false → jsFalsyS b.mfaCode = false →
      jsFalsyS b.username = false →
      configMissing env = true →
      mfaHandler (some b) env gw = (configErrorResponse, [])) ∧
    (∀ (b : SetPasswordReq) (env : Env) (gw : GwOracle),
      jsFalsyS b.username = false → jsFalsyS b.previousPassword = false →
      jsFalsyS b.proposedPassword = false → jsFalsyS b.session = false →
      (validatePassword (b.proposedPassword.getD "")).valid = true →
      configMissing env = true →
      setPasswordHandler (some b) env gw = (configErrorResponse, [])) ∧
    (∀ (b : ResetReq) (env : Env) (gw : GwOracle),
      (b.operation = some "initiate" ∨ b.operation = some "confirm") →
      jsFalsyS b.username = false →
      configMissing env = true →
      resetPasswordHandler (some b) env gw = (configErrorResponse, [])) ∧
    (∀ (b : VerifyReq) (env : Env) (gw : GwOracle),
      jsFalsyS b.username = false → jsFalsyS b.code = false →
      (jsTrimList (b.code.getD "").data).isEmpty = false →
      configMissing env = true →
      verifyHandler (some b) env gw = (configErrorResponse, [])) := by
  refine ⟨?_, ?_, ?_, ?_, ?_, ?_⟩
  · intro b env gw h1 h2 hc
    simp [loginHandler, h1, h2, hc]
  · intro b env gw h1 h2 h3 h4 h5 hc
    simp [signupHandler, h1, h2, h3, h4, h5, hc]
  · intro b env gw h1 h2 h3 hc
    simp [mfaHandler, h1, h2, h3, hc]
  · intro b env gw h1 h2 h3 h4 h5 hc
    simp [setPasswordHandler, h1, h2, h3, h4, h5, hc]
  · intro b env gw hop h1 hc
    rcases hop with hop | hop <;>
      simp [resetPasswordHandler, hop, jsFalsyS_some, h1, hc]
  · intro b env gw h1 h2 h3 hc
    simp [verifyHandler, h1, h2, h3, hc]

/-- Witness for the amended configuration theorem at a concrete event
with absent configuration. -/
theorem config_missing_500_witness :
    (jsFalsyS (some "alice") = false ∧ jsFalsyS (some "pw") = false ∧
      configMissing ⟨none, none, none, none⟩ = true) ∧
    loginHandler (some ⟨some "alice", some "pw"⟩) ⟨none, none, none, none⟩
      (fun _ => .ok .null) = (configErrorResponse, []) :=
  ⟨⟨by decide, by decide, by decide⟩,
    config_missing_500.1 ⟨some "alice", some "pw"⟩ ⟨none, none, none, none⟩
      (fun _ => .ok .null) (by decide) (by decide) (by decide)⟩

/-- Claim C5 counterexample: a whitespace-only username is truthy in
JavaScript, so the login handler does not return 400 and the gateway is
invoked with the whitespace username. -/
theorem whitespace_field_not_rejected :
    loginHandler (some ⟨some " ", some "x"⟩) ⟨some "pool", some "client", none, none⟩
      (fun _ => .ok .null) =
    (formatSuccessResponse .null 200, [GwCall.authenticate " " "x"]) := by
  decide

/-- Claim C5 (amended): for every handler, a required field that is
absent or the empty string makes the handler return status 400 without
invoking the gateway.  The presence checks perform no trimming, so a
whitespace-only field generally counts as present (see the login
counterexample); the one exception is the verification handler's code
field, whose separate format check does reject a code that is empty
after trimming with a 400 and no gateway call.  For the reset
handler's confirm-only fields the 400 additionally assumes the
configuration check, which precedes them, passes. -/
theorem missing_fields_400 :
    (∀ (b : LoginReq) (env : Env) (gw : GwOracle),
      jsFalsyS b.username = true ∨ jsFalsyS b.password = true →
      (loginHandler (some b) env gw).1.statusCode = 400 ∧
      (loginHandler (some b) env gw).2 = []) ∧
    (∀ (b : SignupReq) (env : Env) (gw : GwOracle),
      jsFalsyS b.username = true ∨ jsFalsyS b.password = true ∨
        jsFalsyS b.email = true →
      (signupHandler (some b) env gw).1.statusCode = 400 ∧
      (signupHandler (some b) env gw).2 = []) ∧
    (∀ (b : MfaReq) (env : Env) (gw : GwOracle),
      jsFalsyS b.session = true ∨ jsFalsyS b.mfaCode = true ∨
        jsFalsyS b.username = true →
      (mfaHandler (some b) env gw).1.statusCode = 400 ∧
      (mfaHandler (some b) env gw).2 = []) ∧
    (∀ (b : SetPasswordReq) (env : Env) (gw : GwOracle),
      jsFalsyS b.username = true ∨ jsFalsyS b.previousPassword = true ∨
        jsFalsyS b.proposedPassword = true ∨ jsFalsyS b.session = true →
      (setPasswordHandler (some b) env gw).1.statusCode = 400 ∧
      (setPasswordHandler (some b) env gw).2 = []) ∧
    (∀ (b : ResetReq) (env : Env) (gw : GwOracle),
      (b.operation = some "initiate" ∨ b.operation = some "confirm") →
      jsFalsyS b.username = true →
      (resetPasswordHandler (some b) env gw).1.statusCode = 400 ∧
      (resetPasswordHandler (some b) env gw).2 = []) ∧
    (∀ (b : ResetReq) (env : Env) (gw : GwOracle),
      b.operation = some "confirm" →
      jsFalsyS b.username = false → configMissing env = false →
      jsFalsyS b.code = true ∨ jsFalsyS b.newPassword = true →
      (resetPasswordHandler (some b) env gw).1.statusCode = 400 ∧
      (resetPasswordHandler (some b) env gw).2 = []) ∧
    (∀ (b : VerifyReq) (env : Env) (gw : GwOracle),
      jsFalsyS b.username = true ∨ jsFalsyS b.code = true →
      (verifyHandler (some b) env gw).1.statusCode = 400 ∧
      (verifyHandler (some b) env gw).2 = []) ∧
    (∀ (b : VerifyReq) (env : Env) (gw : GwOracle),
      (jsTrimList (b.code.getD "").data).isEmpty = true →
      (verifyHandler (some b) env gw).1.statusCode = 400 ∧
      (verifyHandler (some b) env gw).2 = []) := by
  refine ⟨?_, ?_, ?_, ?_, ?_, ?_, ?_, ?_⟩
  · intro b env gw h
    simp [loginHandler, h, formatErrorResponse]
  · intro b env gw h
    simp [signupHandler, or_assoc, h, formatErrorResponse]
  · intro b env gw h
    simp [mfaHandler, or_assoc, h, formatErrorResponse]
  · intro b env gw h
    simp [setPasswordHandler, or_assoc, h, formatErrorResponse]
  · intro b env gw hop h
    rcases hop with hop | hop <;>
      simp [resetPasswordHandler, hop, jsFalsyS_some, h, formatErrorResponse]
  · intro b env gw hop h1 hc h
    simp [resetPasswordHandler, hop, jsFalsyS_some, h1, hc, h, formatErrorResponse]
  · intro b env gw h
    simp [verifyHandler, h, formatErrorResponse]
  · intro b env gw hw
    by_cases h1 : (jsFalsyS b.username = true ∨ jsFalsyS b.code = true)
    · simp [verifyHandler, h1, formatErrorResponse]
    · simp [verifyHandler, h1, hw, formatErrorResponse]

/-- Witness for the amended missing-fields theorem at a concrete event
with an absent password field. -/
theorem missing_fields_400_witness :
    (jsFalsyS (none : Option String) = true) ∧
    (loginHandler (some ⟨some "alice", none⟩) ⟨some "pool", some "client", none, none⟩
      (fun _ => .ok .null)).1.statusCode = 400 ∧
    (loginHandler (some ⟨some "alice", none⟩) ⟨some "pool", some "client", none, none⟩
      (fun _ => .ok .null)).2 = [] :=
  ⟨by decide,
    (missing_fields_400.1 ⟨some "alice", none⟩ ⟨some "pool", some "client", none, none⟩
      (fun _ => .ok .null) (Or.inr (by decide))).1,
    (missing_fields_400.1 ⟨some "alice", none⟩ ⟨some "pool", some "client", none, none⟩
      (fun _ => .ok .null) (Or.inr (by decide))).2⟩

/-- Claim C6: during login, a gateway failure named
UserNotFoundException and one named NotAuthorizedException (wrong
password) produce identical response envelopes with status 401 and the
same message, for any (non-challenge) provider message texts, so the
response reveals nothing about account existence. -/
theorem login_no_user_enumeration :
    ∀ (u p pool client : String) (r1 r2 : Option String) (m1 m2 : String),
      u ≠ "" → p ≠ "" → pool ≠ "" → client ≠ "" →
      leadsWith mfaMark.data m1.data = false →
      leadsWith mfaMark.data m2.data = false →
      loginHandler (some ⟨some u, some p⟩) ⟨some pool, some client, r1, r2⟩
        (fun _ => .error ⟨"UserNotFoundException", m1⟩) =
      loginHandler (some ⟨some u, some p⟩) ⟨some pool, some client, r1, r2⟩
        (fun _ => .error ⟨"NotAuthorizedException", m2⟩) ∧
      (loginHandler (some ⟨some u, some p⟩) ⟨some pool, some client, r1, r2⟩
        (fun _ => .error ⟨"UserNotFoundException", m1⟩)).1.statusCode = 401 := by
  intro u p pool client r1 r2 m1 m2 hu hp hpool hclient hm1 hm2
  have c1 : loginCatch ⟨"UserNotFoundException", m1⟩ =
      formatErrorResponse ⟨"Error", "Incorrect username or password"⟩ 401 := by
    unfold loginCatch
    rw [if_neg (by simp [hm1])]
    simp
  have c2 : loginCatch ⟨"NotAuthorizedException", m2⟩ =
      formatErrorResponse ⟨"Error", "Incorrect username or password"⟩ 401 := by
    unfold loginCatch
    rw [if_neg (by simp [hm2])]
    simp
  have hred : ∀ e : ErrObj,
      loginHandler (some ⟨some u, some p⟩) ⟨some pool, some client, r1, r2⟩
        (fun _ => .error e) = (loginCatch e, [GwCall.authenticate u p]) := by
    intro e
    simp only [loginHandler, jsFalsyS_some, configMissing]
    rw [if_neg (by simp [hu, hp]), if_neg (by simp [hpool, hclient])]
    simp
  rw [hred, hred, c1, c2]
  exact ⟨rfl, rfl⟩

/-- Witness for the user-enumeration theorem at concrete messages. -/
theorem login_no_user_enumeration_witness :
    (("alice" : String) ≠ "" ∧ ("pw" : String) ≠ "" ∧ ("pool" : String) ≠ "" ∧
      ("client" : String) ≠ "" ∧
      leadsWith mfaMark.data ("User does not exist." : String).data = false ∧
      leadsWith mfaMark.data ("Incorrect username or password." : String).data = false) ∧
    loginHandler (some ⟨some "alice", some "pw"⟩) ⟨some "pool", some "client", none, none⟩
      (fun _ => .error ⟨"UserNotFoundException", "User does not exist."⟩) =
    loginHandler (some ⟨some "alice", some "pw"⟩) ⟨some "pool", some "client", none, none⟩
      (fun _ => .error ⟨"NotAuthorizedException", "Incorrect username or password."⟩) :=
  ⟨⟨by decide, by decide, by decide, by decide, by decide, by decide⟩,
    (login_no_user_enumeration "alice" "pw" "pool" "client" none none
      "User does not exist." "Incorrect username or password."
      (by decide) (by decide) (by decide) (by decide) (by decide) (by decide)).1⟩

theorem loginTrace_le (ev : Option LoginReq) (env : Env) (gw : GwOracle) :
    (loginHandler ev env gw).2.length ≤ 1 := by
  rcases ev with _ | b
  · simp [loginHandler]
  · simp only [loginHandler]
    split_ifs
    · simp
    · simp
    · cases hgw : gw (GwCall.authenticate (b.username.getD "") (b.password.getD "")) <;>
        simp [hgw]

theorem signupTrace_le (ev : Option SignupReq) (env : Env) (gw : GwOracle) :
    (signupHandler ev env gw).2.length ≤ 1 := by
  rcases ev with _ | b
  · simp [signupHandler]
  · simp only [signupHandler]
    split_ifs
    · simp
    · simp
    · simp
    · simp
    · cases hgw : gw (GwCall.register (b.username.getD "") (b.password.getD "")
        (b.email.getD "") b.attributes) <;> simp [hgw]

theorem mfaTrace_le (ev : Option MfaReq) (env : Env) (gw : GwOracle) :
    (mfaHandler ev env gw).2.length ≤ 1 := by
  rcases ev with _ | b
  · simp [mfaHandler]
  · simp only [mfaHandler]
    split_ifs
    · simp
    · simp
    · cases hgw : gw (GwCall.respondToChallenge (b.session.getD "") (b.mfaCode.getD "")
        (b.username.getD "")) <;> simp [hgw]

theorem setPasswordTrace_le (ev : Option SetPasswordReq) (env : Env) (gw : GwOracle) :
    (setPasswordHandler ev env gw).2.length ≤ 1 := by
  rcases ev with _ | b
  · simp [setPasswordHandler]
  · simp only [setPasswordHandler]
    split_ifs
    · simp
    · simp
    · simp
    · cases hgw : gw (GwCall.changePassword (b.previousPassword.getD "")
        (b.proposedPassword.getD "") (b.session.getD "")) <;> simp [hgw]

theorem resetTrace_le (ev : Option ResetReq) (env : Env) (gw : GwOracle) :
    (resetPasswordHandler ev env gw).2.length ≤ 1 := by
  rcases ev with _ | b
  · simp [resetPasswordHandler]
  · simp only [resetPasswordHandler]
    split_ifs
    · simp
    · simp
    · simp
    · cases hgw : gw (GwCall.initiateReset (b.username.getD "")) <;> simp [hgw]
    · simp
    · simp
    · cases hgw : gw (GwCall.confirmReset (b.username.getD "") (b.code.getD "")
        (b.newPassword.getD "")) <;> simp [hgw]
    · simp

theorem verifyTrace_le (ev : Option VerifyReq) (env : Env) (gw : GwOracle) :
    (verifyHandler ev env gw).2.length ≤ 1 := by
  rcases ev with _ | b
  · simp [verifyHandler]
  · simp only [verifyHandler]
    split_ifs
    · simp
    · simp
    · simp
    · cases hgw : gw (GwCall.verifyCode (b.username.getD "")
        ⟨jsTrimList (b.code.getD "").data⟩) <;> simp [hgw]

theorem mem_of_len_le_one {α : Type} {l : List α} (h : l.length ≤ 1) {x y : α}
    (hx : x ∈ l) (hy : y ∈ l) : x = y := by
  rcases l with _ | ⟨a, _ | ⟨b, t⟩⟩
  · simp at hx
  · simp at hx hy
    rw [hx, hy]
  · simp at h

/-- Claim C7: every handler invokes at most one gateway operation per
request, for every input; in particular the reset-password handler can
never invoke both the initiate and the confirm operation in one
request. -/
theorem single_gateway_dispatch :
    (∀ (ev : Option LoginReq) (env : Env) (gw : GwOracle),
      (loginHandler ev env gw).2.length ≤ 1) ∧
    (∀ (ev : Option SignupReq) (env : Env) (gw : GwOracle),
      (signupHandler ev env gw).2.length ≤ 1) ∧
    (∀ (ev : Option MfaReq) (env : Env) (gw : GwOracle),
      (mfaHandler ev env gw).2.length ≤ 1) ∧
    (∀ (ev : Option SetPasswordReq) (env : Env) (gw : GwOracle),
      (setPasswordHandler ev env gw).2.length ≤ 1) ∧
    (∀ (ev : Option ResetReq) (env : Env) (gw : GwOracle),
      (resetPasswordHandler ev env gw).2.length ≤ 1) ∧
    (∀ (ev : Option VerifyReq) (env : Env) (gw : GwOracle),
      (verifyHandler ev env gw).2.length ≤ 1) ∧
    (∀ (ev : Option ResetReq) (env : Env) (gw : GwOracle),
      ¬ ((∃ u, GwCall.initiateReset u ∈ (resetPasswordHandler ev env gw).2) ∧
         (∃ u c p2, GwCall.confirmReset u c p2 ∈ (resetPasswordHandler ev env gw).2))) := by
  refine ⟨loginTrace_le, signupTrace_le, mfaTrace_le, setPasswordTrace_le,
    resetTrace_le, verifyTrace_le, ?_⟩
  intro ev env gw
  rintro ⟨⟨u, hu⟩, ⟨u2, c2, p2, hc⟩⟩
  have := mem_of_len_le_one (resetTrace_le ev env gw) hu hc
  simp at this

/-- Witness for the amended redaction theorem: a concrete gateway error
during login whose response body is clean. -/
theorem handlers_redact_gateway_errors_witness :
    (leadsWith mfaMark.data ("User does not exist." : String).data = false ∧
      (loginHandler (some ⟨some "alice", some "pw"⟩)
        ⟨some "pool", some "client", none, none⟩
        (fun _ => .error ⟨"UserNotFoundException", "User does not exist."⟩)).2 ≠ []) ∧
    bodyClean (loginHandler (some ⟨some "alice", some "pw"⟩)
      ⟨some "pool", some "client", none, none⟩
      (fun _ => .error ⟨"UserNotFoundException", "User does not exist."⟩)).1 :=
  ⟨⟨by decide, by decide⟩,
    handlers_redact_gateway_errors.1 (some ⟨some "alice", some "pw"⟩)
      ⟨some "pool", some "client", none, none⟩
      ⟨"UserNotFoundException", "User does not exist."⟩ (by decide) (by decide)⟩

/-- Witness for the email-shape theorem: a string without an at sign is
rejected. -/
theorem validateEmail_spec_witness :
    (('@' : Char) ∉ ("abc" : String).data) ∧ validateEmail "abc" = false :=
  ⟨by decide, validateEmail_spec.2.2.1 "abc" (by decide)⟩

/-- Witness for the single-dispatch theorem at a concrete reset event. -/
theorem single_gateway_dispatch_witness :
    ¬ ((∃ u, GwCall.initiateReset u ∈
        (resetPasswordHandler (some ⟨some "initiate", some "alice", none, none⟩)
          ⟨some "pool", some "client", none, none⟩ (fun _ => .ok .null)).2) ∧
       (∃ u c p2, GwCall.confirmReset u c p2 ∈
        (resetPasswordHandler (some ⟨some "initiate", some "alice", none, none⟩)
          ⟨some "pool", some "client", none, none⟩ (fun _ => .ok .null)).2)) :=
  single_gateway_dispatch.2.2.2.2.2.2 (some ⟨some "initiate", some "alice", none, none⟩)
    ⟨some "pool", some "client", none, none⟩ (fun _ => .ok .null)

example :
    (verifyHandler (some ⟨some "alice", some "  "⟩)
      ⟨some "pool", some "client", none, none⟩
      (fun _ => .ok .null)).1.statusCode = 400 ∧
    (verifyHandler (some ⟨some "alice", some "  "⟩)
      ⟨some "pool", some "client", none, none⟩
      (fun _ => .ok .null)).2 = [] := by
  exact ⟨by decide, by decide⟩

example :
    verifyHandler (some ⟨some "alice", some " 123456 "⟩)
      ⟨some "pool", some "client", none, none⟩
      (fun _ => .ok .null) =
    (formatSuccessResponse
      (.jobj (mkObj [("message", .js "User verification successful")])) 200,
      [GwCall.verifyCode "alice" "123456"]) := by
  decide

example : cognitoLogin ⟨some "", some "sess123", some "at", none, none, none, none⟩ =
    .ok (.jobj (mkObj
      [("accessToken", .js "at"),
       ("idToken", .js ""),
       ("refreshToken", .js ""),
       ("expiresIn", .jn 0),
       ("tokenType", .js "Bearer")])) := by
  simp [cognitoLogin, jsFalsyS_some]
